import Mathlib

/-!
Verification development for the Ensha versioned encrypted backup engine.

The definitions below are a shallow embedding of the Python sources:
`backend/db.py`, `backend/backup_manager.py`, `backend/restore_manager.py`,
`backend/otp.py`, `backend/disaster_recovery.py`, `backend/storage_client.py`
and `config/settings.py`.  Machine integers are modelled as `Nat`, byte
strings as `List Nat`, SQL tables as Lean lists kept in insertion order,
and each Python function becomes a pure state-passing Lean function.
External boundaries (the symmetric encryption service, the checksum
function, the success of a blob-store copy, the notification channel,
the OTP random generator and the wall clock) are passed in as explicit
parameters, so every definition is executable.
-/

namespace Ensha

/-- Byte strings (contents of files and blobs). -/
abbrev Bytes := List Nat

/-- External boundaries: symmetric encryption (`backend/encryption.py` is an
opaque `encrypt/decrypt` service per the spec) and the checksum function
(`hashlib.sha256` in `backup_manager._sha256_of_file`). `decrypt` is partial
on purpose: it fails on blobs that are not valid ciphertexts. -/
structure Env where
  encrypt : Bytes → Bytes
  decrypt : Bytes → Option Bytes
  sha : Bytes → String

/-- Modelled from the spec: the notification boundary
(`notify(address, text) -> bool`, fire-and-forget).  The module-level
`send_alert` used by every caller is absent from `backend/alerts.py`, so a
single call to it is modelled by its observable outcome: it either returns
a boolean or raises. -/
inductive NotifyRes where
  | returns (b : Bool)
  | raises
deriving DecidableEq, Repr

-- ---------------------------------------------------------------------
-- Data model (tables of backend/db.py)
-- ---------------------------------------------------------------------

/-- Row of the `users` table. -/
structure UserR where
  id : Nat
  email : String
  telegram_chat_id : Option String
deriving DecidableEq, Repr

/-- Row of the `files` table (`FileEntry`): one backed-up version. -/
structure FileEntryR where
  id : Nat
  user_id : Nat
  filename : String
  version : Nat
  storage_path : String
  checksum : Option String
  deleted : Bool
  suspected_ransomware : Bool
  corrupted : Bool
deriving DecidableEq, Repr

/-- Row of the `snapshots` table. -/
structure SnapshotR where
  id : Nat
  user_id : Nat
  name : Option String
  description : Option String
deriving DecidableEq, Repr

/-- Row of the `snapshot_entries` table. -/
structure SnapshotEntryR where
  id : Nat
  snapshot_id : Nat
  file_entry_id : Nat
deriving DecidableEq, Repr

/-- Row of the `otps` table. -/
structure OTPR where
  id : Nat
  user_id : Nat
  code : String
  expiry : Nat
  used : Bool
deriving DecidableEq, Repr

/-- Row of the `logs` table. -/
structure LogR where
  user_id : Option Nat
  action : String
  details : String
deriving DecidableEq, Repr

/-- Row of the `drevents` table. -/
structure DREventR where
  id : Nat
  user_id : Option Nat
  event_type : String
  details : String
  handled : Bool
deriving DecidableEq, Repr

/-- Row of the `replication_queue` table. -/
structure ReplR where
  id : Nat
  file_entry_id : Nat
  storage_path : String
  attempted : Nat
  replicated : Bool
deriving DecidableEq, Repr

/-- Row of the `unsynced_files` table (`PendingUpload`). -/
structure UnsyncedR where
  id : Nat
  user_id : Nat
  local_path : String
  filename : String
  attempts : Nat
deriving DecidableEq, Repr

/-- The Entity Store: one list per table, in insertion order, plus a
primary-key allocator shared by all tables. -/
structure DB where
  users : List UserR
  files : List FileEntryR
  snapshots : List SnapshotR
  snapshot_entries : List SnapshotEntryR
  otps : List OTPR
  logs : List LogR
  drevents : List DREventR
  repl_queue : List ReplR
  unsynced : List UnsyncedR
  next_id : Nat
deriving DecidableEq, Repr

/-- Whole-system state: Entity Store, primary Blob Store (storage path to
encrypted bytes), the local filesystem, and the texts handed to the
notification boundary (for observing notification attempts). -/
structure SysState where
  db : DB
  primary : List (String × Bytes)
  fs : List (String × Bytes)
  notified : List String
deriving DecidableEq, Repr

instance {ε α : Type} [DecidableEq ε] [DecidableEq α] : DecidableEq (Except ε α) :=
  fun a b =>
    match a, b with
    | Except.ok x, Except.ok y =>
        if h : x = y then isTrue (by rw [h]) else isFalse (by intro hc; cases hc; exact h rfl)
    | Except.error x, Except.error y =>
        if h : x = y then isTrue (by rw [h]) else isFalse (by intro hc; cases hc; exact h rfl)
    | Except.ok _, Except.error _ => isFalse (by intro hc; cases hc)
    | Except.error _, Except.ok _ => isFalse (by intro hc; cases hc)

/-- Lookup in a path-to-bytes map (first binding wins). -/
def lookupPath (m : List (String × Bytes)) (k : String) : Option Bytes :=
  (m.find? (fun p => p.1 == k)).map (fun p => p.2)

-- ---------------------------------------------------------------------
-- db.py helpers
-- ---------------------------------------------------------------------

/-- Embeds `db.get_user`. -/
def DB.get_user (db : DB) (uid : Nat) : Option UserR :=
  db.users.find? (fun u => u.id == uid)

/-- Embeds `db.add_log`. -/
def DB.add_log (db : DB) (uid : Option Nat) (action details : String) : DB :=
  { db with logs := db.logs ++ [⟨uid, action, details⟩] }

/-- Embeds `db.record_dr_event`. -/
def DB.record_dr_event (db : DB) (uid : Option Nat) (etype details : String) : DB :=
  { db with drevents := db.drevents ++ [⟨db.next_id, uid, etype, details, false⟩],
            next_id := db.next_id + 1 }

/-- The rows of `files` matching `(user_id, filename, deleted=False)` —
the filter used by `get_file_entries`, `get_latest_version` and
`prune_old_versions`. -/
def DB.liveEntries (db : DB) (uid : Nat) (fname : String) : List FileEntryR :=
  db.files.filter (fun f => f.user_id == uid && f.filename == fname && f.deleted == false)

/-- The `ORDER BY version DESC` relation on file entries. -/
def verDesc (a b : FileEntryR) : Prop := b.version ≤ a.version

instance : DecidableRel verDesc := fun a b => Nat.decLe b.version a.version

instance : IsTotal FileEntryR verDesc :=
  ⟨fun a b => (Nat.le_total b.version a.version).elim Or.inl Or.inr⟩

instance : IsTrans FileEntryR verDesc :=
  ⟨fun _ _ _ hab hbc => Nat.le_trans hbc hab⟩

/-- Sort file entries by version, newest first. -/
def sortVerDesc (l : List FileEntryR) : List FileEntryR :=
  l.insertionSort verDesc

/-- Embeds `db.get_file_entries` (one filename): non-deleted rows, version descending. -/
def DB.get_file_entries (db : DB) (uid : Nat) (fname : String) : List FileEntryR :=
  sortVerDesc (db.liveEntries uid fname)

/-- Embeds `db.get_file_entry`. -/
def DB.get_file_entry (db : DB) (uid : Nat) (fname : String) (version : Nat) :
    Option FileEntryR :=
  db.files.find? (fun f =>
    f.user_id == uid && f.filename == fname && f.version == version && f.deleted == false)

/-- Embeds `db.get_latest_version`: first row in version-descending order, else 0. -/
def DB.get_latest_version (db : DB) (uid : Nat) (fname : String) : Nat :=
  match (db.get_file_entries uid fname).head? with
  | some e => e.version
  | none => 0

/-- Embeds `db.add_file_entry`. -/
def DB.add_file_entry (db : DB) (uid : Nat) (fname : String) (version : Nat)
    (storage_path : String) (checksum : Option String) : FileEntryR × DB :=
  let fe : FileEntryR :=
    ⟨db.next_id, uid, fname, version, storage_path, checksum, false, false, false⟩
  (fe, { db with files := db.files ++ [fe], next_id := db.next_id + 1 })

/-- Embeds `db.prune_old_versions`: list non-deleted rows version-descending, keep
the newest `keep`, DELETE the rest from the table (the source calls
`session.delete(e)`, removing the row), and return their `(id, storage_path)`
pairs. -/
def DB.prune_old_versions (db : DB) (uid : Nat) (fname : String) (keep : Nat) :
    List (Nat × String) × DB :=
  let entries := sortVerDesc (db.liveEntries uid fname)
  if entries.length ≤ keep then ([], db)
  else
    let toRemove := entries.drop keep
    let removed := toRemove.map (fun e => (e.id, e.storage_path))
    let db' := { db with
      files := db.files.filter (fun f => !(toRemove.any (fun e => e.id == f.id))) }
    (removed, db')

/-- Embeds `db.create_snapshot`. -/
def DB.create_snapshot (db : DB) (uid : Nat) (name description : Option String) :
    SnapshotR × DB :=
  let s : SnapshotR := ⟨db.next_id, uid, name, description⟩
  (s, { db with snapshots := db.snapshots ++ [s], next_id := db.next_id + 1 })

/-- Embeds `db.add_snapshot_entry`. -/
def DB.add_snapshot_entry (db : DB) (snapshot_id file_entry_id : Nat) : DB :=
  { db with
    snapshot_entries := db.snapshot_entries ++ [⟨db.next_id, snapshot_id, file_entry_id⟩],
    next_id := db.next_id + 1 }

/-- Embeds `db.get_snapshot_entries`. -/
def DB.get_snapshot_entries (db : DB) (snapshot_id : Nat) : List SnapshotEntryR :=
  db.snapshot_entries.filter (fun se => se.snapshot_id == snapshot_id)

/-- Embeds `db.add_unsynced_file`. -/
def DB.add_unsynced_file (db : DB) (uid : Nat) (local_path fname : String) : DB :=
  { db with unsynced := db.unsynced ++ [⟨db.next_id, uid, local_path, fname, 0⟩],
            next_id := db.next_id + 1 }

/-- Embeds `db.pop_unsynced_files`: take up to `limit` rows in queued order and
delete them from the table before returning them. -/
def DB.pop_unsynced_files (db : DB) (limit : Nat) : List UnsyncedR × DB :=
  (db.unsynced.take limit, { db with unsynced := db.unsynced.drop limit })

/-- Embeds `db.enqueue_replication`. -/
def DB.enqueue_replication (db : DB) (file_entry_id : Nat) (storage_path : String) : DB :=
  { db with repl_queue := db.repl_queue ++ [⟨db.next_id, file_entry_id, storage_path, 0, false⟩],
            next_id := db.next_id + 1 }

/-- Embeds `db.create_otp_record`. -/
def DB.create_otp_record (db : DB) (uid : Nat) (code : String) (expiry : Nat) :
    OTPR × DB :=
  let o : OTPR := ⟨db.next_id, uid, code, expiry, false⟩
  (o, { db with otps := db.otps ++ [o], next_id := db.next_id + 1 })

/-- Embeds `db.get_valid_otp`: first row matching `(user_id, code, used=False)`;
rejected only when its expiry is strictly in the past (`otp.expiry < now`).
The `code` argument is optional because `perform_restore` is called with
`otp_code=None` by the DR orchestrator; SQL `code = NULL` matches no row. -/
def DB.get_valid_otp (db : DB) (uid : Nat) (code : Option String) (now : Nat) :
    Option OTPR :=
  match db.otps.find? (fun o => o.user_id == uid && code == some o.code && o.used == false) with
  | none => none
  | some o => if o.expiry < now then none else some o

/-- Embeds `db.mark_otp_used`. -/
def DB.mark_otp_used (db : DB) (otp_id : Nat) : DB :=
  { db with otps := db.otps.map (fun o => if o.id == otp_id then { o with used := true } else o) }

-- ---------------------------------------------------------------------
-- config/settings.py and backup_manager constants
-- ---------------------------------------------------------------------

/-- Embeds `backup_manager.MAX_VERSIONS`: `settings.MAX_VERSIONS_PER_FILE` is not
defined, so the `getattr` fallback 3 applies. -/
def MAX_VERSIONS : Nat := 3

/-- Embeds `restore_manager.OTP_EXPIRY_SECONDS` (settings default 300). -/
def OTP_EXPIRY_SECONDS : Nat := 300

/-- Embeds `settings.REQUIRE_OTP_FOR_SNAPSHOT_RESTORE` is not defined, so the
`getattr` fallback `True` applies in `restore_snapshot`. -/
def REQUIRE_OTP_FOR_SNAPSHOT_RESTORE : Bool := true

/-- Embeds `settings.DEBUG_SHOW_OTP` defaults to `True`. -/
def DEBUG_SHOW_OTP : Bool := true

-- ---------------------------------------------------------------------
-- storage_client.py
-- ---------------------------------------------------------------------

/-- Embeds `storage_client.PRIMARY_STORAGE` (fallback local path). -/
def PRIMARY_STORAGE : String := "./nas_storage"

/-- Sanitisation in `storage_client._storage_filename`: replace the path
separator by an underscore (`filename.replace(os.sep, "_")`). -/
def sanitizeName (s : String) : String :=
  String.mk (s.data.map (fun c => if c = '/' then '_' else c))

/-- Embeds `storage_client._storage_filename`. -/
def storageFilename (fname : String) (version : Nat) : String :=
  sanitizeName fname ++ ".v" ++ toString version ++ ".enc"

/-- The storage path produced by `storage_client.upload_file`:
`PRIMARY_STORAGE/user_{id}/{filename}.v{version}.enc`. -/
def storagePathOf (uid : Nat) (fname : String) (version : Nat) : String :=
  PRIMARY_STORAGE ++ "/user_" ++ toString uid ++ "/" ++ storageFilename fname version

/-- Embeds `storage_client.upload_file`: copy the local file into the primary
store under the computed storage path.  `srcContent` is the content read
from the given local path (`none` when the file is missing, which raises);
`copyOk` is the outcome of `shutil.copy2` (false models an I/O error).
Returns the storage path, or an error that propagates to the caller. -/
def upload_file (st : SysState) (copyOk : Bool) (uid : Nat) (fname : String)
    (version : Nat) (srcContent : Option Bytes) : SysState × Except String String :=
  let dest := storagePathOf uid fname version
  match srcContent, copyOk with
  | some content, true =>
      let st := { st with primary := (dest, content) :: st.primary }
      let st := { st with db := (st.db.add_log (some uid) "upload_success"
        ("Uploaded " ++ fname ++ " v" ++ toString version ++ " to " ++ dest)) }
      (st, Except.ok dest)
  | _, _ =>
      let st := { st with db := (st.db.add_log (some uid) "upload_exception"
        "Failed to copy to primary storage") }
      let st := { st with db := (st.db.record_dr_event (some uid) "upload_failed_local"
        (fname ++ " v" ++ toString version ++ " upload failed")) }
      (st, Except.error "upload failed")

/-- Embeds `storage_client.delete_blob`: remove the blob if present; deleting a
missing blob is also a success. -/
def delete_blob (st : SysState) (storage_path : String) : SysState × Bool :=
  ({ st with primary := st.primary.filter (fun p => !(p.1 == storage_path)) }, true)

/-- Embeds `os.path.basename`: the suffix after the last separator. -/
def basenameOf (p : String) : String :=
  String.mk ((p.data.reverse.takeWhile (fun c => c ≠ '/')).reverse)

-- ---------------------------------------------------------------------
-- backup_manager.py
-- ---------------------------------------------------------------------

/-- Result dictionaries of the restore/OTP paths: Python
a Python dict with keys ok, message, and optionally code. -/
structure ResultD where
  ok : Bool
  message : String
  code : Option String
deriving DecidableEq, Repr

/-- Embeds `backup_manager.perform_manual_backup`.  `copyOk` is the primary-store
copy outcome, `notify` the notification-boundary outcome.  Returns the new
state and either the created `FileEntry` or the propagated exception. -/
def perform_manual_backup (env : Env) (copyOk : Bool) (notify : NotifyRes)
    (st : SysState) (uid : Nat) (file_path : String) :
    SysState × Except String FileEntryR :=
  match st.db.get_user uid with
  | none => (st, Except.error "User not found")
  | some _user =>
    match lookupPath st.fs file_path with
    | none =>
        let msg := "Backup failed: source not found: " ++ file_path
        ({ st with db := st.db.add_log (some uid) "backup_failed" msg },
         Except.error msg)
    | some content =>
      let fname := basenameOf file_path
      let latest := st.db.get_latest_version uid fname
      let version := latest + 1
      let encBytes := env.encrypt content
      let checksum := env.sha encBytes
      -- upload of the encrypted temp file; on failure queue a PendingUpload,
      -- record a DR event, and propagate
      match upload_file st copyOk uid fname version (some encBytes) with
      | (stUp, Except.error e) =>
          let db := stUp.db.add_log (some uid) "upload_failed"
            (fname ++ " v" ++ toString version ++ " upload failed")
          let db := db.add_unsynced_file uid file_path fname
          let db := db.record_dr_event (some uid) "upload_failed"
            (fname ++ " v" ++ toString version ++ " upload failed")
          ({ stUp with db := db }, Except.error e)
      | (stUp, Except.ok storage_path) =>
          let (fe, db) := stUp.db.add_file_entry uid fname version storage_path (some checksum)
          let (snap, db) := db.create_snapshot uid
            (some (fname ++ "-v" ++ toString version))
            (some ("Auto snapshot for " ++ fname ++ ":v" ++ toString version))
          let db := db.add_snapshot_entry snap.id fe.id
          let db := db.enqueue_replication fe.id storage_path
          let (removed, db) := db.prune_old_versions uid fname MAX_VERSIONS
          let st2 := removed.foldl (fun s r => (delete_blob s r.2).1) { stUp with db := db }
          let db := st2.db.add_log (some uid) "backup"
            (fname ++ " v" ++ toString version ++ " backed up to " ++ storage_path)
          -- best-effort notification, wrapped in try/except in the source
          let msg := "Backup complete: " ++ fname ++ " (v" ++ toString version ++ ")"
          let st3 := { st2 with db := db, notified := st2.notified ++ [msg] }
          let st3 :=
            match notify with
            | NotifyRes.raises =>
                { st3 with db := (st3.db.add_log (some uid) "alert_failed"
                    ("Telegram alert failed for " ++ fname ++ " v" ++ toString version)) }
            | NotifyRes.returns _ => st3
          (st3, Except.ok fe)

-- ---------------------------------------------------------------------
-- otp.py
-- ---------------------------------------------------------------------

/-- Embeds `otp.verify`: validate against `get_valid_otp`, mark used on success. -/
def otpVerify (st : SysState) (uid : Nat) (code : String) (purpose : String)
    (now : Nat) : SysState × ResultD :=
  match st.db.get_valid_otp uid (some code) now with
  | none =>
      ({ st with db := (st.db.add_log (some uid) "otp_invalid"
          ("Purpose=" ++ purpose ++ ", code=" ++ code)) },
       ⟨false, "Invalid or expired OTP", none⟩)
  | some o =>
      let db := st.db.mark_otp_used o.id
      let db := db.add_log (some uid) "otp_verified"
        ("Purpose=" ++ purpose ++ ", OTP " ++ toString o.id ++ " used")
      let db := db.record_dr_event (some uid) "otp_used"
        ("OTP " ++ toString o.id ++ " used for " ++ purpose)
      ({ st with db := db }, ⟨true, "OTP verified successfully", none⟩)

/-- Embeds `otp.request`: persist a fresh code and deliver it; the delivery call is
wrapped in try/except, so a raising channel only logs.  `code` stands for
the random code generator and `now` for the wall clock. -/
def otpRequest (st : SysState) (uid : Nat) (purpose : String)
    (notify : NotifyRes) (code : String) (now : Nat) : SysState × ResultD :=
  match st.db.get_user uid with
  | none => (st, ⟨false, "User not found", none⟩)
  | some _user =>
      let expiry := now + OTP_EXPIRY_SECONDS
      let (otp, db) := st.db.create_otp_record uid code expiry
      let st := { st with db := db }
      let msg := "OTP for " ++ purpose ++ " Code: " ++ code
      let st := { st with notified := st.notified ++ [msg] }
      let (st, sent) :=
        match notify with
        | NotifyRes.returns b => (st, b)
        | NotifyRes.raises =>
            ({ st with db := st.db.add_log (some uid) "otp_alert_error" "send failed" }, false)
      let db := st.db.add_log (some uid) "otp_requested"
        ("OTP " ++ toString otp.id ++ " for " ++ purpose)
      let db := db.record_dr_event (some uid) "otp_issued"
        ("OTP " ++ toString otp.id ++ " issued for " ++ purpose)
      let st := { st with db := db }
      if !sent then (st, ⟨false, "Failed to deliver OTP via Telegram.", none⟩)
      else if DEBUG_SHOW_OTP then (st, ⟨true, "OTP sent via Telegram", some code⟩)
      else (st, ⟨true, "OTP sent via Telegram", none⟩)

-- ---------------------------------------------------------------------
-- restore_manager.py
-- ---------------------------------------------------------------------

/-- Embeds `restore_manager.start_restore_request`: persist a fresh OTP and send it.
The `alerts.send_alert` call here is NOT wrapped in try/except, so a raising
channel propagates out of the function (modelled as `Except.error`); the OTP
row is already committed at that point.  `code` stands for
`_make_otp_code()` and `now` for the wall clock. -/
def start_restore_request (st : SysState) (uid : Nat) (filename : String)
    (notify : NotifyRes) (code : String) (now : Nat) :
    SysState × Except String ResultD :=
  match st.db.get_user uid with
  | none => (st, Except.ok ⟨false, "User not found", none⟩)
  | some _user =>
      let expiry := now + OTP_EXPIRY_SECONDS
      let (otp, db) := st.db.create_otp_record uid code expiry
      let st := { st with db := db }
      let msg := "Your OTP for restoring " ++ filename ++ " is: " ++ code
      let st := { st with notified := st.notified ++ [msg] }
      match notify with
      | NotifyRes.raises => (st, Except.error "AttributeError in send_alert")
      | NotifyRes.returns sent =>
          let db := st.db.add_log (some uid) "otp_sent"
            ("OTP id=" ++ toString otp.id ++ " for " ++ filename)
          let db := db.record_dr_event (some uid) "otp_issued"
            ("OTP " ++ toString otp.id ++ " issued for " ++ filename)
          let st := { st with db := db }
          if !sent then
            (st, Except.ok ⟨false, "Failed to send OTP via Telegram; check configuration.", none⟩)
          else
            (st, Except.ok ⟨true, "OTP sent via Telegram. Check your messages.", none⟩)

/-- Embeds `restore_manager.perform_restore`: validate the OTP (always — there is no
internal bypass; `otp_code = none` matches no row), burn it, resolve the
entry, download, decrypt into `target_path`, and record DR events. -/
def perform_restore (env : Env) (st : SysState) (uid : Nat) (filename : String)
    (version : Option Nat) (target_path : String) (otp_code : Option String)
    (now : Nat) (notify : NotifyRes) : SysState × ResultD :=
  match st.db.get_user uid with
  | none => (st, ⟨false, "User not found", none⟩)
  | some _user =>
    match st.db.get_valid_otp uid otp_code now with
    | none =>
        ({ st with db := (st.db.add_log (some uid) "restore_failed_otp"
            ("OTP invalid for " ++ filename)) },
         ⟨false, "OTP invalid or expired", none⟩)
    | some otp_rec =>
      let st := { st with db := st.db.mark_otp_used otp_rec.id }
      let entryOpt : Option FileEntryR :=
        match version with
        | none => (st.db.get_file_entries uid filename).head?
        | some v => st.db.get_file_entry uid filename v
      match version, entryOpt with
      | none, none => (st, ⟨false, "No backups found for this file", none⟩)
      | some v, none =>
          (st, ⟨false, "Requested version " ++ toString v ++ " not found", none⟩)
      | _, some entry =>
        let st := { st with db := (st.db.add_log (some uid) "restore_start"
          ("Restore " ++ filename ++ " v" ++ toString entry.version ++ " to " ++ target_path)) }
        match lookupPath st.primary entry.storage_path with
        | none =>
            let db := st.db.add_log (some uid) "restore_download_failed" entry.storage_path
            let db := db.record_dr_event (some uid) "restore_failed"
              ("Download failed for " ++ entry.storage_path)
            ({ st with db := db }, ⟨false, "Failed to download backup from storage", none⟩)
        | some blob =>
          match env.decrypt blob with
          | none =>
              let db := st.db.add_log (some uid) "restore_decrypt_failed"
                (filename ++ " v" ++ toString entry.version)
              let db := db.record_dr_event (some uid) "restore_failed"
                ("Decryption failed for " ++ filename ++ " v" ++ toString entry.version)
              ({ st with db := db },
               ⟨false, "Failed to decrypt backup (possible corruption or wrong key)", none⟩)
          | some plain =>
            let st := { st with fs := (target_path, plain) :: st.fs }
            let db := st.db.add_log (some uid) "restore_success"
              (filename ++ " v" ++ toString entry.version ++ " restored to " ++ target_path)
            let db := db.record_dr_event (some uid) "restore_performed"
              (filename ++ " v" ++ toString entry.version ++ " restored to " ++ target_path)
            let st := { st with db := db }
            -- completion alert, wrapped in try/except in the source
            let amsg := "Restore completed: " ++ filename ++
              " (v" ++ toString entry.version ++ ") to " ++ target_path
            let st := { st with notified := st.notified ++ [amsg] }
            let st :=
              match notify with
              | NotifyRes.raises =>
                  { st with db := (st.db.add_log (some uid) "alert_failed"
                      ("Failed to send restore completion alert for " ++ filename)) }
              | NotifyRes.returns _ => st
            (st, ⟨true, "Restore completed successfully", none⟩)

/-- A failure record of `restore_snapshot`: either the referenced
`FileEntry` row is missing, or a per-file restore step failed. -/
inductive SnapFail where
  | missingEntry (entry_id : Nat)
  | fileFail (filename : String) (version : Nat) (reason : String)
deriving DecidableEq, Repr

/-- A success record of `restore_snapshot`. -/
structure SnapOk where
  filename : String
  version : Nat
  target : String
deriving DecidableEq, Repr

/-- Result dictionary of `restore_snapshot`. -/
structure SnapResult where
  ok : Bool
  message : String
  restored : List SnapOk
  failed : List SnapFail
deriving DecidableEq, Repr

/-- One iteration of the `restore_snapshot` per-entry loop: resolve the
`FileEntry` by primary key (`session.get`, so the `deleted` flag is not
consulted), download its blob and decrypt it into `target_folder/filename`,
collecting the outcome; a failure never aborts the loop. -/
def restoreSnapshotStep (env : Env) (uid : Nat) (target_folder : String)
    (acc : SysState × List SnapOk × List SnapFail) (se : SnapshotEntryR) :
    SysState × List SnapOk × List SnapFail :=
  let st := acc.1
  let succ := acc.2.1
  let fails := acc.2.2
  match st.db.files.find? (fun f => f.id == se.file_entry_id) with
  | none => (st, succ, fails ++ [SnapFail.missingEntry se.file_entry_id])
  | some fe =>
    let tgt := target_folder ++ "/" ++ fe.filename
    match lookupPath st.primary fe.storage_path with
    | none =>
        let st := { st with db := (st.db.add_log (some uid) "snapshot_restore_failed"
            (fe.filename ++ " v" ++ toString fe.version)) }
        (st, succ, fails ++ [SnapFail.fileFail fe.filename fe.version
          "No compatible storage client download API found"])
    | some blob =>
      match env.decrypt blob with
      | none =>
          let st := { st with db := (st.db.add_log (some uid) "snapshot_restore_failed"
              (fe.filename ++ " v" ++ toString fe.version)) }
          (st, succ, fails ++ [SnapFail.fileFail fe.filename fe.version "decryption failed"])
      | some plain =>
          let st := { st with fs := (tgt, plain) :: st.fs }
          let st := { st with db := (st.db.add_log (some uid) "snapshot_restore_file"
              ("Restored " ++ fe.filename ++ " (v" ++ toString fe.version ++ ") to " ++ tgt)) }
          (st, succ ++ [⟨fe.filename, fe.version, tgt⟩], fails)

/-- Embeds `restore_manager.restore_snapshot`: optional up-front OTP gate (the
policy flag defaults to true), then iterate every snapshot entry, continue
past per-file failures, append one `snapshot_restore` DR event with the
success/failure counts, best-effort notify, and return the report. -/
def restore_snapshot (env : Env) (st : SysState) (uid : Nat) (snapshot_id : Nat)
    (target_folder : String) (otp_code : Option String) (now : Nat)
    (_notify : NotifyRes) : SysState × SnapResult :=
  match st.db.get_user uid with
  | none => (st, ⟨false, "User not found", [], []⟩)
  | some _user =>
    let gated : SysState ⊕ SnapResult :=
      if REQUIRE_OTP_FOR_SNAPSHOT_RESTORE then
        match otp_code with
        | none => Sum.inr ⟨false, "OTP required for snapshot restore", [], []⟩
        | some _ =>
          match st.db.get_valid_otp uid otp_code now with
          | none => Sum.inr ⟨false, "OTP invalid or expired", [], []⟩
          | some o => Sum.inl { st with db := st.db.mark_otp_used o.id }
      else Sum.inl st
    match gated with
    | Sum.inr r => (st, r)
    | Sum.inl st =>
      let entries := st.db.get_snapshot_entries snapshot_id
      if entries.isEmpty then
        (st, ⟨false, "Snapshot not found or has no entries", [], []⟩)
      else
        let (st, succ, fails) :=
          entries.foldl (restoreSnapshotStep env uid target_folder) (st, [], [])
        let st := { st with db := (st.db.record_dr_event (some uid) "snapshot_restore"
          ("Snapshot " ++ toString snapshot_id ++ " restored: success=" ++
            toString succ.length ++ " fail=" ++ toString fails.length)) }
        let amsg := "Snapshot restore completed: " ++ toString succ.length ++
          " files restored, " ++ toString fails.length ++ " failures"
        let st := { st with notified := st.notified ++ [amsg] }
        (st, ⟨true, "", succ, fails⟩)

-- ---------------------------------------------------------------------
-- disaster_recovery.py
-- ---------------------------------------------------------------------

/-- Embeds `disaster_recovery._safe_alert` (numeric user id variant): resolve the
chat id, invoke the boundary when one exists; everything is inside
try/except, so a raising channel only logs `alert_exception`. -/
def safe_alert (st : SysState) (uid : Nat) (text : String) (notify : NotifyRes) :
    SysState × Bool :=
  let chat : Option String :=
    match st.db.get_user uid with
    | some u => u.telegram_chat_id
    | none => none
  match chat with
  | none =>
      ({ st with db := st.db.add_log none "alert_sent" (text ++ " sent=false") }, false)
  | some _ =>
      let st := { st with notified := st.notified ++ [text] }
      match notify with
      | NotifyRes.raises =>
          ({ st with db := st.db.add_log none "alert_exception" "send_alert raised" }, false)
      | NotifyRes.returns b =>
          ({ st with db := (st.db.add_log none "alert_sent"
              (text ++ " sent=" ++ toString b)) }, b)

/-- Embeds `disaster_recovery.handle_corruption_detected`: record the DR event,
then — when a known-good version exists — attempt the automated restore via
`perform_restore` with `otp_code=None`, recording `auto_restore_success` or
`auto_restore_failed` and alerting either way; with no known-good version,
alert only. -/
def handle_corruption_detected (env : Env) (st : SysState) (uid : Nat)
    (filename : String) (last_known_good_version : Option Nat) (now : Nat)
    (notify : NotifyRes) : SysState :=
  let db := st.db.record_dr_event (some uid) "corruption_detected"
    ("filename=" ++ filename)
  let db := db.add_log (some uid) "corruption_detected" filename
  let st := { st with db := db }
  match last_known_good_version with
  | some v =>
      let (st, res) := perform_restore env st uid filename (some v) filename none now notify
      if res.ok then
        let st := { st with db := (st.db.record_dr_event (some uid) "auto_restore_success"
          (filename ++ " restored to last_good_version " ++ toString v)) }
        (safe_alert st uid ("Auto-restore completed for " ++ filename) notify).1
      else
        let st := { st with db := (st.db.record_dr_event (some uid) "auto_restore_failed"
          (filename ++ " auto-restore failed: " ++ res.message)) }
        (safe_alert st uid ("Auto-restore failed for " ++ filename) notify).1
  | none =>
      (safe_alert st uid
        ("Corruption detected for " ++ filename ++ " but no previous good version found")
        notify).1

-- ---------------------------------------------------------------------
-- Crash-recovery worker (disaster_recovery._unsynced_uploader_loop)
-- ---------------------------------------------------------------------

/-- Body of the `_unsynced_uploader_loop` for one popped `PendingUpload`
row: allocate the next version, upload the file at the RECORDED LOCAL PATH
directly (the raw plaintext file is handed to `upload_file` — the loop never
calls the encryption step), register a `FileEntry` with `checksum=None`,
snapshot-link it and enqueue replication; on any failure re-insert a new
`PendingUpload` row and append a DR event.  No pruning occurs. -/
def processUnsynced (st : SysState) (copyOk : Bool) (u : UnsyncedR) : SysState :=
  let latest := st.db.get_latest_version u.user_id u.filename
  let version := latest + 1
  match upload_file st copyOk u.user_id u.filename version (lookupPath st.fs u.local_path) with
  | (stUp, Except.ok storage_path) =>
      let (fe, db) := stUp.db.add_file_entry u.user_id u.filename version storage_path none
      let (snap, db) := db.create_snapshot u.user_id
        (some (u.filename ++ "-v" ++ toString version ++ "-recover"))
        (some "Recovered unsynced upload")
      let db := db.add_snapshot_entry snap.id fe.id
      let db := db.enqueue_replication fe.id storage_path
      let db := db.add_log (some u.user_id) "unsynced_upload_success"
        (u.local_path ++ " to " ++ storage_path)
      { stUp with db := db }
  | (stUp, Except.error _) =>
      let db := stUp.db.add_unsynced_file u.user_id u.local_path u.filename
      let db := db.add_log (some u.user_id) "unsynced_upload_failed" u.local_path
      let db := db.record_dr_event (some u.user_id) "unsynced_upload_failed" u.local_path
      { stUp with db := db }

/-- One batch pass of the crash-recovery worker: pop up to 20 rows from the
queue (removing them), then process each in order.  `copyOks` supplies the
per-item copy outcomes. -/
def uploaderPass (st : SysState) (copyOks : UnsyncedR → Bool) : SysState :=
  let (batch, db) := st.db.pop_unsynced_files 20
  batch.foldl (fun s u => processUnsynced s (copyOks u) u) { st with db := db }

/-- Intermediate state of the crash-recovery worker: system state plus the
popped rows currently held only in worker memory. -/
structure WState where
  sys : SysState
  mem : List UnsyncedR
deriving DecidableEq, Repr

/-- Step relation of the crash-recovery worker: `pop` removes a batch from
the durable queue into worker memory (this is `db.pop_unsynced_files`:
deletion happens at poll time, before any processing); `proc` processes the
first held item with an arbitrary copy outcome. -/
inductive WStep : WState → WState → Prop
  | pop (s : WState) (h : s.mem = []) :
      WStep s ⟨{ s.sys with db := (s.sys.db.pop_unsynced_files 20).2 },
               (s.sys.db.pop_unsynced_files 20).1⟩
  | proc (s : WState) (u : UnsyncedR) (rest : List UnsyncedR) (copyOk : Bool)
      (h : s.mem = u :: rest) :
      WStep s ⟨processUnsynced s.sys copyOk u, rest⟩

/-- Reachability for the worker transition system. -/
def WReach : WState → WState → Prop := Relation.ReflTransGen WStep

/-- The obligation for pending upload `u` is present in the durable queue. -/
def inQueue (s : WState) (u : UnsyncedR) : Prop :=
  ∃ r ∈ s.sys.db.unsynced, r.user_id = u.user_id ∧ r.local_path = u.local_path ∧
    r.filename = u.filename

/-- The obligation for pending upload `u` is held in worker memory. -/
def inMem (s : WState) (u : UnsyncedR) : Prop :=
  ∃ r ∈ s.mem, r.user_id = u.user_id ∧ r.local_path = u.local_path ∧
    r.filename = u.filename

/-- A `FileEntry` for pending upload `u` has been registered. -/
def registered (s : WState) (u : UnsyncedR) : Prop :=
  ∃ fe ∈ s.sys.db.files, fe.user_id = u.user_id ∧ fe.filename = u.filename

instance (s : WState) (u : UnsyncedR) : Decidable (inQueue s u) := by
  unfold inQueue; infer_instance

instance (s : WState) (u : UnsyncedR) : Decidable (inMem s u) := by
  unfold inMem; infer_instance

instance (s : WState) (u : UnsyncedR) : Decidable (registered s u) := by
  unfold registered; infer_instance

-- ---------------------------------------------------------------------
-- Well-formedness and basic lemmas
-- ---------------------------------------------------------------------

/-- Well-formed Entity Store: the primary keys of `files` are pairwise
distinct and below the allocator (the ORM guarantees this). -/
def WFdb (db : DB) : Prop :=
  (db.files.map FileEntryR.id).Nodup ∧ ∀ f ∈ db.files, f.id < db.next_id

instance (db : DB) : Decidable (WFdb db) := by
  unfold WFdb; infer_instance

theorem mem_liveEntries {db : DB} {uid : Nat} {fname : String} {x : FileEntryR} :
    x ∈ db.liveEntries uid fname ↔
      x ∈ db.files ∧ x.user_id = uid ∧ x.filename = fname ∧ x.deleted = false := by
  simp [DB.liveEntries, List.mem_filter, and_assoc]

theorem sortVerDesc_perm (l : List FileEntryR) : (sortVerDesc l).Perm l :=
  List.perm_insertionSort verDesc l

theorem sortVerDesc_sorted (l : List FileEntryR) :
    List.Sorted verDesc (sortVerDesc l) :=
  List.sorted_insertionSort verDesc l

theorem mem_sortVerDesc {l : List FileEntryR} {x : FileEntryR} :
    x ∈ sortVerDesc l ↔ x ∈ l :=
  (sortVerDesc_perm l).mem_iff

/-- The head of the version-descending sort dominates every member. -/
theorem version_le_sort_head {l : List FileEntryR} {e : FileEntryR}
    {t : List FileEntryR} (hsort : sortVerDesc l = e :: t) {x : FileEntryR}
    (hx : x ∈ l) : x.version ≤ e.version := by
  have hx' : x ∈ sortVerDesc l := mem_sortVerDesc.mpr hx
  rw [hsort] at hx'
  rcases List.mem_cons.mp hx' with h | h
  · cases h; exact Nat.le_refl _
  · have hs := sortVerDesc_sorted l
    rw [hsort] at hs
    exact (List.rel_of_sorted_cons hs) x h

/-- The head of the version-descending sort is a member of the list. -/
theorem sort_head_mem {l : List FileEntryR} {e : FileEntryR} {t : List FileEntryR}
    (hsort : sortVerDesc l = e :: t) : e ∈ l := by
  have : e ∈ sortVerDesc l := by rw [hsort]; exact List.mem_cons_self e t
  exact mem_sortVerDesc.mp this

/-- Specification of `get_latest_version`: it bounds every live version. -/
theorem get_latest_version_ge {db : DB} {uid : Nat} {fname : String}
    {x : FileEntryR} (hx : x ∈ db.liveEntries uid fname) :
    x.version ≤ db.get_latest_version uid fname := by
  unfold DB.get_latest_version DB.get_file_entries
  cases hsort : sortVerDesc (db.liveEntries uid fname) with
  | nil =>
      have hx' : x ∈ sortVerDesc (db.liveEntries uid fname) := mem_sortVerDesc.mpr hx
      rw [hsort] at hx'
      cases hx'
  | cons e t =>
      simpa [hsort] using version_le_sort_head hsort hx

/-- Specification of `get_latest_version`: on a non-empty live set it is
attained by a live entry. -/
theorem get_latest_version_mem {db : DB} {uid : Nat} {fname : String}
    (h : db.liveEntries uid fname ≠ []) :
    ∃ e ∈ db.liveEntries uid fname, e.version = db.get_latest_version uid fname := by
  unfold DB.get_latest_version DB.get_file_entries
  cases hsort : sortVerDesc (db.liveEntries uid fname) with
  | nil =>
      have hp := sortVerDesc_perm (db.liveEntries uid fname)
      rw [hsort] at hp
      exact absurd hp.symm.eq_nil h
  | cons e t =>
      exact ⟨e, sort_head_mem hsort, by simp [hsort]⟩

/-- Members of a well-formed `files` table agree when their ids agree. -/
theorem wf_id_inj {db : DB} (hwf : WFdb db) {a b : FileEntryR}
    (ha : a ∈ db.files) (hb : b ∈ db.files) (hid : a.id = b.id) : a = b :=
  List.inj_on_of_nodup_map hwf.1 ha hb hid

-- ---------------------------------------------------------------------
-- Concrete fixtures for witnesses and counterexamples
-- ---------------------------------------------------------------------

/-- A concrete instantiation of the external boundaries, used by closed
witnesses: encryption prepends a marker byte, decryption strips it. -/
def env0 : Env :=
  ⟨fun b => 7 :: b,
   fun b => match b with | 7 :: t => some t | _ => none,
   fun b => "sha-" ++ toString b.length⟩

/-- The empty Entity Store. -/
def db0 : DB := ⟨[], [], [], [], [], [], [], [], [], 1⟩

/-- Fixture user 1. -/
def user1 : UserR := ⟨1, "a@example.com", some "chat1"⟩

/-- Fixture user 2. -/
def user2 : UserR := ⟨2, "b@example.com", some "chat2"⟩

/-- Fixture file entry for user 1, file f.txt: id and version both `i`. -/
def feF (i : Nat) : FileEntryR :=
  ⟨i, 1, "f.txt", i, "p" ++ toString i, none, false, false, false⟩

/-- Fixture store with four live versions of `(user 1, f.txt)`. -/
def dbFour : DB :=
  { db0 with users := [user1], files := [feF 1, feF 2, feF 3, feF 4], next_id := 5 }

-- ---------------------------------------------------------------------
-- C2: retention prune — soft delete vs hard delete
-- ---------------------------------------------------------------------

/-- C2 (counterexample): the claim states that pruning with retention 3
soft-deletes the oldest entry, setting its `deleted` flag while the row is
retained in the Entity Store.  On the store with live versions 1–4 of
`(user 1, f.txt)`, pruning keeps versions 2–4 and returns version 1 as
removed, but the row with id 1 is GONE from the `files` table afterwards —
no row with id 1 (deleted-flagged or otherwise) remains, so the claimed
soft-delete retention is false. -/
theorem C2_prune_soft_delete_counterexample :
    (dbFour.prune_old_versions 1 "f.txt" 3).1 = [(1, "p1")] ∧
    ¬ ∃ f ∈ (dbFour.prune_old_versions 1 "f.txt" 3).2.files, f.id = 1 := by
  decide

theorem live_nodup {db : DB} (hwf : WFdb db) (uid : Nat) (fname : String) :
    (db.liveEntries uid fname).Nodup :=
  List.Nodup.of_map FileEntryR.id
    (hwf.1.sublist ((List.filter_sublist db.files).map FileEntryR.id))

/-- In a well-formed store, the id-match test against a sublist of the live
entries is exactly membership. -/
theorem any_id_match_iff {db : DB} (hwf : WFdb db) {uid : Nat} {fname : String}
    {sub : List FileEntryR} (hsub : ∀ e ∈ sub, e ∈ db.liveEntries uid fname)
    {f : FileEntryR} (hf : f ∈ db.files) :
    sub.any (fun e => e.id == f.id) = true ↔ f ∈ sub := by
  constructor
  · intro h
    rcases List.any_eq_true.mp h with ⟨e, he, hid⟩
    have heq : e = f :=
      wf_id_inj hwf (mem_liveEntries.mp (hsub e he)).1 hf (by simpa using hid)
    exact heq ▸ he
  · intro h
    exact List.any_eq_true.mpr ⟨f, h, by simp⟩

/-- After a real prune, the live set equals the old live set minus the
dropped tail of the version-descending sort. -/
theorem prune_live_filter {db : DB} (uid : Nat) (fname : String) (keep : Nat)
    (hgt : keep < (sortVerDesc (db.liveEntries uid fname)).length) :
    (db.prune_old_versions uid fname keep).2.liveEntries uid fname =
      (db.liveEntries uid fname).filter
        (fun f => !((sortVerDesc (db.liveEntries uid fname)).drop keep).any
          (fun e => e.id == f.id)) := by
  unfold DB.prune_old_versions
  rw [if_neg (by omega)]
  simp only [DB.liveEntries, List.filter_filter]
  exact List.filter_congr (fun a _ => Bool.and_comm _ _)

/-- C2 (amended): after a successful backup with retention `keep`, pruning
`(user, filename)` keeps the `keep` highest-version live rows and removes
every older live row from the `files` table outright (hard delete: no row
with a removed id remains, rather than a retained row with the `deleted`
flag set), returning the `(id, locator)` pairs of exactly the removed rows;
rows of other users, other filenames, or already soft-deleted rows are
untouched, and when there are at most `keep` live rows nothing changes. -/
theorem C2_prune_retention (db : DB) (uid : Nat) (fname : String) (keep : Nat)
    (hwf : WFdb db) :
    ((db.liveEntries uid fname).length ≤ keep →
      db.prune_old_versions uid fname keep = ([], db))
    ∧ (keep < (db.liveEntries uid fname).length →
      ((db.prune_old_versions uid fname keep).2.liveEntries uid fname).length = keep
      ∧ (db.prune_old_versions uid fname keep).1.length
          = (db.liveEntries uid fname).length - keep
      ∧ (∀ p ∈ (db.prune_old_versions uid fname keep).1,
          ∃ r ∈ db.liveEntries uid fname, r.id = p.1 ∧ r.storage_path = p.2)
      ∧ (∀ p ∈ (db.prune_old_versions uid fname keep).1,
          ∀ f ∈ (db.prune_old_versions uid fname keep).2.files, f.id ≠ p.1)
      ∧ (∀ e ∈ (db.prune_old_versions uid fname keep).2.liveEntries uid fname,
          ∀ p ∈ (db.prune_old_versions uid fname keep).1,
          ∀ r ∈ db.liveEntries uid fname, r.id = p.1 → r.version ≤ e.version))
    ∧ (∀ f ∈ db.files,
        ¬(f.user_id = uid ∧ f.filename = fname ∧ f.deleted = false) →
        f ∈ (db.prune_old_versions uid fname keep).2.files) := by
  have hlen : (sortVerDesc (db.liveEntries uid fname)).length
      = (db.liveEntries uid fname).length :=
    (sortVerDesc_perm _).length_eq
  refine ⟨?_, ?_, ?_⟩
  · intro hle
    unfold DB.prune_old_versions
    rw [if_pos (by omega)]
  · intro hgt
    have hgt' : keep < (sortVerDesc (db.liveEntries uid fname)).length := by omega
    have hnodupLive : (db.liveEntries uid fname).Nodup := live_nodup hwf uid fname
    have hnodupEntries : (sortVerDesc (db.liveEntries uid fname)).Nodup :=
      ((sortVerDesc_perm _).nodup_iff).mpr hnodupLive
    have hdisj : List.Disjoint ((sortVerDesc (db.liveEntries uid fname)).take keep)
        ((sortVerDesc (db.liveEntries uid fname)).drop keep) :=
      List.disjoint_take_drop hnodupEntries (Nat.le_refl keep)
    have hsubDrop : ∀ e ∈ (sortVerDesc (db.liveEntries uid fname)).drop keep,
        e ∈ db.liveEntries uid fname := fun e he =>
      mem_sortVerDesc.mp (List.mem_of_mem_drop he)
    -- the live set after pruning is a permutation of the kept prefix
    have hfiltTake : ((sortVerDesc (db.liveEntries uid fname)).take keep).filter
        (fun f => !(((sortVerDesc (db.liveEntries uid fname)).drop keep).any (fun e => e.id == f.id))) = (sortVerDesc (db.liveEntries uid fname)).take keep := by
      apply List.filter_eq_self.mpr
      intro a ha
      have hfa : a ∈ db.files :=
        (mem_liveEntries.mp (mem_sortVerDesc.mp (List.mem_of_mem_take ha))).1
      have : ¬ (((sortVerDesc (db.liveEntries uid fname)).drop keep).any (fun e => e.id == a.id) = true) := by
        intro hany
        exact hdisj ha ((any_id_match_iff hwf hsubDrop hfa).mp hany)
      simp only [Bool.not_eq_true'] at this ⊢
      simp [this]
    have hfiltDrop : ((sortVerDesc (db.liveEntries uid fname)).drop keep).filter
        (fun f => !(((sortVerDesc (db.liveEntries uid fname)).drop keep).any (fun e => e.id == f.id))) = [] := by
      apply List.filter_eq_nil_iff.mpr
      intro a ha
      simp only [Bool.not_eq_true', Bool.not_eq_false]
      exact List.any_eq_true.mpr ⟨a, ha, by simp⟩
    have hperm : (db.prune_old_versions uid fname keep).2.liveEntries uid fname
        |>.Perm ((sortVerDesc (db.liveEntries uid fname)).take keep) := by
      rw [prune_live_filter uid fname keep hgt']
      calc (db.liveEntries uid fname).filter (fun f => !(((sortVerDesc (db.liveEntries uid fname)).drop keep).any (fun e => e.id == f.id)))
          |>.Perm (((sortVerDesc (db.liveEntries uid fname)).take keep ++ (sortVerDesc (db.liveEntries uid fname)).drop keep).filter
            (fun f => !(((sortVerDesc (db.liveEntries uid fname)).drop keep).any (fun e => e.id == f.id)))) := by
            exact List.Perm.filter _
              (by rw [List.take_append_drop]; exact (sortVerDesc_perm (db.liveEntries uid fname)).symm)
        _ = (sortVerDesc (db.liveEntries uid fname)).take keep := by rw [List.filter_append, hfiltTake, hfiltDrop,
              List.append_nil]
    have hkeepLen : ((sortVerDesc (db.liveEntries uid fname)).take keep).length = keep := by
      simp [List.length_take, Nat.min_eq_left (Nat.le_of_lt hgt')]
    -- removed pairs
    have hremoved : (db.prune_old_versions uid fname keep).1
        = ((sortVerDesc (db.liveEntries uid fname)).drop keep).map (fun e => (e.id, e.storage_path)) := by
      unfold DB.prune_old_versions
      rw [if_neg (by omega)]
    have hfiles : (db.prune_old_versions uid fname keep).2.files
        = db.files.filter
          (fun f => !(((sortVerDesc (db.liveEntries uid fname)).drop keep).any (fun e => e.id == f.id))) := by
      unfold DB.prune_old_versions
      rw [if_neg (by omega)]
    refine ⟨?_, ?_, ?_, ?_, ?_⟩
    · rw [hperm.length_eq, hkeepLen]
    · rw [hremoved, List.length_map, List.length_drop, hlen]
    · intro p hp
      rw [hremoved] at hp
      rcases List.mem_map.mp hp with ⟨e, he, hpe⟩
      exact ⟨e, hsubDrop e he, by rw [← hpe], by rw [← hpe]⟩
    · intro p hp f hf heq
      rw [hremoved] at hp
      rw [hfiles] at hf
      rcases List.mem_map.mp hp with ⟨e, he, hpe⟩
      have hkept := (List.mem_filter.mp hf).2
      rw [← hpe] at heq
      have hidEq : e.id = f.id := heq.symm
      have hany : ((sortVerDesc (db.liveEntries uid fname)).drop keep).any
          (fun x => x.id == f.id) = true :=
        List.any_eq_true.mpr ⟨e, he, by simp [hidEq]⟩
      rw [hany] at hkept
      exact absurd hkept (by simp)
    · intro e he p hp r hr hid
      rw [hremoved] at hp
      rcases List.mem_map.mp hp with ⟨d, hd, hpd⟩
      have hrd : r = d := by
        apply wf_id_inj hwf (mem_liveEntries.mp hr).1
          (mem_liveEntries.mp (hsubDrop d hd)).1
        rw [hid, ← hpd]
      have heTake : e ∈ (sortVerDesc (db.liveEntries uid fname)).take keep := hperm.mem_iff.mp he
      have hsorted : List.Pairwise verDesc ((sortVerDesc (db.liveEntries uid fname)).take keep ++ (sortVerDesc (db.liveEntries uid fname)).drop keep) := by
        rw [List.take_append_drop]
        exact sortVerDesc_sorted (db.liveEntries uid fname)
      have := (List.pairwise_append.mp hsorted).2.2 e heTake d hd
      rw [hrd]
      exact this
  · intro f hf hnot
    unfold DB.prune_old_versions
    by_cases hc : (sortVerDesc (db.liveEntries uid fname)).length ≤ keep
    · rw [if_pos hc]; exact hf
    · rw [if_neg hc]
      simp only [List.mem_filter]
      refine ⟨hf, ?_⟩
      cases hany : ((sortVerDesc (db.liveEntries uid fname)).drop keep).any
          (fun e => e.id == f.id) with
      | false => simp
      | true =>
        exfalso
        rcases List.any_eq_true.mp hany with ⟨e, he, hid⟩
        have heLive : e ∈ db.liveEntries uid fname :=
          mem_sortVerDesc.mp (List.mem_of_mem_drop he)
        have heqef : e = f :=
          wf_id_inj hwf (mem_liveEntries.mp heLive).1 hf (by simpa using hid)
        rcases mem_liveEntries.mp heLive with ⟨_, h1, h2, h3⟩
        exact hnot ⟨by rw [← heqef]; exact h1, by rw [← heqef]; exact h2,
          by rw [← heqef]; exact h3⟩

/-- Witness for the amended C2 theorem at the concrete four-version store. -/
theorem C2_prune_retention_witness :
    WFdb dbFour ∧
    (((dbFour.liveEntries 1 "f.txt").length ≤ 3 →
      dbFour.prune_old_versions 1 "f.txt" 3 = ([], dbFour))
    ∧ (3 < (dbFour.liveEntries 1 "f.txt").length →
      ((dbFour.prune_old_versions 1 "f.txt" 3).2.liveEntries 1 "f.txt").length = 3
      ∧ (dbFour.prune_old_versions 1 "f.txt" 3).1.length
          = (dbFour.liveEntries 1 "f.txt").length - 3
      ∧ (∀ p ∈ (dbFour.prune_old_versions 1 "f.txt" 3).1,
          ∃ r ∈ dbFour.liveEntries 1 "f.txt", r.id = p.1 ∧ r.storage_path = p.2)
      ∧ (∀ p ∈ (dbFour.prune_old_versions 1 "f.txt" 3).1,
          ∀ f ∈ (dbFour.prune_old_versions 1 "f.txt" 3).2.files, f.id ≠ p.1)
      ∧ (∀ e ∈ (dbFour.prune_old_versions 1 "f.txt" 3).2.liveEntries 1 "f.txt",
          ∀ p ∈ (dbFour.prune_old_versions 1 "f.txt" 3).1,
          ∀ r ∈ dbFour.liveEntries 1 "f.txt", r.id = p.1 → r.version ≤ e.version))
    ∧ (∀ f ∈ dbFour.files,
        ¬(f.user_id = 1 ∧ f.filename = "f.txt" ∧ f.deleted = false) →
        f ∈ (dbFour.prune_old_versions 1 "f.txt" 3).2.files)) :=
  ⟨by decide, C2_prune_retention dbFour 1 "f.txt" 3 (by decide)⟩

-- ---------------------------------------------------------------------
-- C4: one-time-code verification
-- ---------------------------------------------------------------------

/-- Fixture OTP row: user 1, code 123456, expiry at time 100, unused. -/
def otpRow : OTPR := ⟨1, 1, "123456", 100, false⟩

/-- Fixture state holding just `otpRow`. -/
def stOtp : SysState :=
  ⟨{ db0 with users := [user1], otps := [otpRow], next_id := 2 }, [], [], []⟩

/-- C4 (counterexample): the claim says verification accepts exactly when
the current time is STRICTLY before the stored expiry.  At `now = expiry`
(time 100 against `otpRow`), the code accepts — `get_valid_otp` rejects
only when `otp.expiry < now` — so the claimed boundary is off by one. -/
theorem C4_otp_boundary_counterexample :
    (otpVerify stOtp 1 "123456" "restore" otpRow.expiry).2.ok = true ∧
    ¬ (otpRow.expiry < otpRow.expiry) := by
  decide

theorem otps_after_verify (st : SysState) (uid : Nat) (code purpose : String)
    (now : Nat) {o : OTPR}
    (hv : st.db.get_valid_otp uid (some code) now = some o) :
    (otpVerify st uid code purpose now).1.db.otps =
      st.db.otps.map (fun r => if r.id == o.id then { r with used := true } else r) := by
  simp [otpVerify, hv, DB.mark_otp_used, DB.add_log, DB.record_dr_event]

theorem get_valid_otp_sound {db : DB} {uid : Nat} {code : String} {now : Nat}
    {o : OTPR} (hv : db.get_valid_otp uid (some code) now = some o) :
    o ∈ db.otps ∧ o.user_id = uid ∧ o.code = code ∧ o.used = false ∧ now ≤ o.expiry := by
  unfold DB.get_valid_otp at hv
  split at hv
  · cases hv
  · next o0 hfind =>
      split at hv
      · cases hv
      · next hexp =>
          cases hv
          have hmem := List.mem_of_find?_eq_some hfind
          have hpred := List.find?_some hfind
          simp only [Bool.and_eq_true, beq_iff_eq, Option.some.injEq] at hpred
          exact ⟨hmem, hpred.1.1, hpred.1.2.symm, by simpa using hpred.2,
            Nat.le_of_not_lt hexp⟩

/-- C4 (amended): verification accepts exactly when an unused stored code
for that user matches and its expiry has not yet passed — `now ≤ expiry`,
boundary inclusive, rather than strictly before expiry; rejection carries
the invalid-or-expired message; and on acceptance the row is immediately
marked used, so a second verification of the same code fails at any later
(or equal) time.  The hypothesis says the `(user, code)` pair identifies at
most one stored row, which the random generator provides in practice. -/
theorem C4_otp_verify_once (st : SysState) (uid : Nat) (code purpose : String)
    (now : Nat)
    (huniq : ∀ o₁ ∈ st.db.otps, ∀ o₂ ∈ st.db.otps,
      o₁.user_id = uid → o₂.user_id = uid → o₁.code = code → o₂.code = code → o₁ = o₂) :
    ((otpVerify st uid code purpose now).2.ok = true ↔
      ∃ o ∈ st.db.otps, o.user_id = uid ∧ o.code = code ∧ o.used = false ∧ now ≤ o.expiry)
    ∧ ((otpVerify st uid code purpose now).2.ok = false →
        (otpVerify st uid code purpose now).2.message = "Invalid or expired OTP")
    ∧ ((otpVerify st uid code purpose now).2.ok = true →
        ∀ now₂, (otpVerify (otpVerify st uid code purpose now).1 uid code purpose now₂).2.ok
          = false) := by
  refine ⟨⟨?_, ?_⟩, ?_, ?_⟩
  · intro hok
    cases hv : st.db.get_valid_otp uid (some code) now with
    | none => simp [otpVerify, hv] at hok
    | some o =>
        rcases get_valid_otp_sound hv with ⟨hmem, h1, h2, h3, h4⟩
        exact ⟨o, hmem, h1, h2, h3, h4⟩
  · rintro ⟨o, hmem, h1, h2, h3, h4⟩
    have hfind : ∃ o1, st.db.otps.find?
        (fun r => r.user_id == uid && (some code == some r.code) && r.used == false)
          = some o1 := by
      have : (st.db.otps.find?
          (fun r => r.user_id == uid && (some code == some r.code) && r.used == false)).isSome := by
        rw [List.find?_isSome]
        exact ⟨o, hmem, by simp [h1, h2, h3]⟩
      exact Option.isSome_iff_exists.mp this
    rcases hfind with ⟨o1, hfind⟩
    have hmem1 := List.mem_of_find?_eq_some hfind
    have hpred1 := List.find?_some hfind
    simp only [Bool.and_eq_true, beq_iff_eq, Option.some.injEq] at hpred1
    have ho1 : o1 = o := huniq o1 hmem1 o hmem hpred1.1.1 h1 hpred1.1.2.symm h2
    have hno : ¬ (o.expiry < now) := Nat.not_lt.mpr h4
    have hv : st.db.get_valid_otp uid (some code) now = some o := by
      unfold DB.get_valid_otp
      rw [hfind, ho1]
      simp [hno]
    simp [otpVerify, hv]
  · intro hfalse
    cases hv : st.db.get_valid_otp uid (some code) now with
    | none => simp [otpVerify, hv]
    | some o => simp [otpVerify, hv] at hfalse
  · intro hok now₂
    cases hv : st.db.get_valid_otp uid (some code) now with
    | none => simp [otpVerify, hv] at hok
    | some o =>
        rcases get_valid_otp_sound hv with ⟨hmem, h1, h2, _h3, _h4⟩
        have hotps := otps_after_verify st uid code purpose now hv
        set st1 := (otpVerify st uid code purpose now).1 with hst1
        have hnone : st1.db.get_valid_otp uid (some code) now₂ = none := by
          unfold DB.get_valid_otp
          have hfind : (st1.db.otps.find?
              (fun r => r.user_id == uid && (some code == some r.code) && r.used == false))
                = none := by
            rw [List.find?_eq_none]
            intro x hx
            rw [hotps] at hx
            rcases List.mem_map.mp hx with ⟨r, hr, hxr⟩
            by_cases hid : (r.id == o.id) = true
            · rw [if_pos hid] at hxr
              simp [← hxr]
            · rw [if_neg hid] at hxr
              intro hpx
              simp only [Bool.and_eq_true, beq_iff_eq, Option.some.injEq] at hpx
              have hro : r = o := huniq r hr o hmem
                (by rw [hxr]; exact hpx.1.1) h1 (by rw [hxr]; exact hpx.1.2.symm) h2
              exact hid (by simp [hro])
          rw [hfind]
        show (otpVerify st1 uid code purpose now₂).2.ok = false
        simp [otpVerify, hnone]

/-- Witness for the amended C4 theorem at the fixture state, time 50. -/
theorem C4_otp_verify_once_witness :
    (∀ o₁ ∈ stOtp.db.otps, ∀ o₂ ∈ stOtp.db.otps,
      o₁.user_id = 1 → o₂.user_id = 1 → o₁.code = "123456" → o₂.code = "123456" → o₁ = o₂)
    ∧ (((otpVerify stOtp 1 "123456" "restore" 50).2.ok = true ↔
      ∃ o ∈ stOtp.db.otps, o.user_id = 1 ∧ o.code = "123456" ∧ o.used = false ∧ 50 ≤ o.expiry)
    ∧ ((otpVerify stOtp 1 "123456" "restore" 50).2.ok = false →
        (otpVerify stOtp 1 "123456" "restore" 50).2.message = "Invalid or expired OTP")
    ∧ ((otpVerify stOtp 1 "123456" "restore" 50).2.ok = true →
        ∀ now₂, (otpVerify (otpVerify stOtp 1 "123456" "restore" 50).1 1 "123456" "restore"
          now₂).2.ok = false)) :=
  ⟨by decide, C4_otp_verify_once stOtp 1 "123456" "restore" 50 (by decide)⟩

-- ---------------------------------------------------------------------
-- C5: backup behaviour when the primary-store put fails
-- ---------------------------------------------------------------------

/-- Fixture base state: user 1 and one local file with two bytes. -/
def stBase : SysState :=
  ⟨{ db0 with users := [user1], next_id := 2 }, [], [("/home/a.txt", [104, 105])], []⟩

/-- C5 (confirmed): when the put of the encrypted blob into the primary
Blob Store fails during a backup, the backup queues a `PendingUpload` row
for the source file, appends a `DREvent` of type `upload_failed`,
propagates the failure to its caller, and creates no `FileEntry` row. -/
theorem C5_upload_failure (env : Env) (st : SysState) (uid : Nat) (path : String)
    (notify : NotifyRes) (u : UserR) (content : Bytes)
    (hu : st.db.get_user uid = some u)
    (hc : lookupPath st.fs path = some content) :
    (perform_manual_backup env false notify st uid path).2 = Except.error "upload failed"
    ∧ (perform_manual_backup env false notify st uid path).1.db.files = st.db.files
    ∧ (∃ q ∈ (perform_manual_backup env false notify st uid path).1.db.unsynced,
        q.user_id = uid ∧ q.local_path = path ∧ q.filename = basenameOf path)
    ∧ (∃ ev ∈ (perform_manual_backup env false notify st uid path).1.db.drevents,
        ev.event_type = "upload_failed") := by
  simp only [perform_manual_backup, hu, hc, upload_file, DB.add_log, DB.record_dr_event,
    DB.add_unsynced_file]
  refine ⟨trivial, trivial, ?_, ?_⟩
  · exact ⟨⟨_, uid, path, basenameOf path, 0⟩,
      List.mem_append_right _ (List.mem_singleton.mpr rfl), rfl, rfl, rfl⟩
  · exact ⟨⟨_, some uid, "upload_failed", _, false⟩,
      List.mem_append_right _ (List.mem_singleton.mpr rfl), rfl⟩

/-- Witness for C5 at the fixture state. -/
theorem C5_upload_failure_witness :
    stBase.db.get_user 1 = some user1
    ∧ lookupPath stBase.fs "/home/a.txt" = some [104, 105]
    ∧ ((perform_manual_backup env0 false (NotifyRes.returns true) stBase 1
          "/home/a.txt").2 = Except.error "upload failed"
    ∧ (perform_manual_backup env0 false (NotifyRes.returns true) stBase 1
          "/home/a.txt").1.db.files = stBase.db.files
    ∧ (∃ q ∈ (perform_manual_backup env0 false (NotifyRes.returns true) stBase 1
          "/home/a.txt").1.db.unsynced,
        q.user_id = 1 ∧ q.local_path = "/home/a.txt" ∧ q.filename = basenameOf "/home/a.txt")
    ∧ (∃ ev ∈ (perform_manual_backup env0 false (NotifyRes.returns true) stBase 1
          "/home/a.txt").1.db.drevents,
        ev.event_type = "upload_failed")) :=
  ⟨by decide, by decide,
   C5_upload_failure env0 stBase 1 "/home/a.txt" (NotifyRes.returns true) user1 [104, 105]
     (by decide) (by decide)⟩

-- ---------------------------------------------------------------------
-- C1: corruption response and the claimed code-gating bypass
-- ---------------------------------------------------------------------

/-- Fixture entry for C1: a known-good version 1 of doc.txt. -/
def feC1 : FileEntryR := ⟨5, 1, "doc.txt", 1, "P", some "s", false, false, false⟩

/-- Fixture state for C1: the entry is registered and its encrypted blob is
present and decryptable, so only code-gating can stop a restore. -/
def stC1 : SysState :=
  ⟨{ db0 with users := [user1], files := [feC1], next_id := 6 },
   [("P", env0.encrypt [1, 2])], [], []⟩

/-- Fixture state stC1 plus a valid unused OTP for user 1. -/
def stC1otp : SysState :=
  { stC1 with db := { stC1.db with otps := [⟨6, 1, "111111", 100, false⟩], next_id := 7 } }

/-- C1 (code bug): the corruption handler calls `perform_restore` with
`otp_code=None` expecting an internal bypass, but `perform_restore`
validates the OTP unconditionally and `None` matches no stored code, so the
automated restore ALWAYS fails with the invalid-or-expired result: the
handler records `auto_restore_failed` (never `auto_restore_success`),
nothing is written back to the original path, and the user is notified of
the failure — even though the same restore succeeds when a valid code is
supplied, showing code-gating is the only blocker. -/
theorem C1_auto_restore_never_bypasses_code :
    (∃ ev ∈ (handle_corruption_detected env0 stC1 1 "doc.txt" (some 1) 10
        (NotifyRes.returns true)).db.drevents,
      ev.event_type = "auto_restore_failed" ∧
      ev.details = "doc.txt auto-restore failed: OTP invalid or expired")
    ∧ (∀ ev ∈ (handle_corruption_detected env0 stC1 1 "doc.txt" (some 1) 10
        (NotifyRes.returns true)).db.drevents,
      ev.event_type ≠ "auto_restore_success")
    ∧ lookupPath (handle_corruption_detected env0 stC1 1 "doc.txt" (some 1) 10
        (NotifyRes.returns true)).fs "doc.txt" = none
    ∧ "Auto-restore failed for doc.txt" ∈ (handle_corruption_detected env0 stC1 1
        "doc.txt" (some 1) 10 (NotifyRes.returns true)).notified
    ∧ (perform_restore env0 stC1otp 1 "doc.txt" (some 1) "doc.txt" (some "111111") 10
        (NotifyRes.returns true)).2.ok = true := by
  decide

-- ---------------------------------------------------------------------
-- C3: crash-recovery worker vs the Backup Pipeline
-- ---------------------------------------------------------------------

/-- Fixture pending upload for C3. -/
def uC3 : UnsyncedR := ⟨1, 1, "/home/a.txt", "a.txt", 0⟩

/-- C3 (code bug): at the same initial state, a direct backup stores the
ENCRYPTION of the source bytes and records its checksum, while the worker
pass for the same pending upload hands the raw local file to `upload_file`
(whose parameter is documented as an encrypted temp file): the blob it
stores equals the plaintext, differs from the encryption, carries
`checksum=None`, and the stored plaintext cannot be decrypted by a later
restore — so the worker does not refine `perform_manual_backup`. -/
theorem C3_worker_stores_plaintext :
    lookupPath (processUnsynced stBase true uC3).primary
        (storagePathOf 1 "a.txt" 1) = some [104, 105]
    ∧ lookupPath (perform_manual_backup env0 true (NotifyRes.returns true) stBase 1
        "/home/a.txt").1.primary (storagePathOf 1 "a.txt" 1)
        = some (env0.encrypt [104, 105])
    ∧ [104, 105] ≠ env0.encrypt [104, 105]
    ∧ (∃ fe ∈ (processUnsynced stBase true uC3).db.files,
        fe.filename = "a.txt" ∧ fe.checksum = none)
    ∧ (∃ fe ∈ (perform_manual_backup env0 true (NotifyRes.returns true) stBase 1
        "/home/a.txt").1.db.files,
        fe.filename = "a.txt" ∧ fe.checksum = some (env0.sha (env0.encrypt [104, 105])))
    ∧ env0.decrypt [104, 105] = none
    ∧ env0.decrypt (env0.encrypt [104, 105]) = some [104, 105] := by
  decide

-- ---------------------------------------------------------------------
-- C8: snapshot restore is a partial-success iteration
-- ---------------------------------------------------------------------

theorem snapStep_drevents (env : Env) (uid : Nat) (tgt : String)
    (acc : SysState × List SnapOk × List SnapFail) (se : SnapshotEntryR) :
    (restoreSnapshotStep env uid tgt acc se).1.db.drevents = acc.1.db.drevents := by
  rcases acc with ⟨st, succ, fails⟩
  unfold restoreSnapshotStep
  cases hf : st.db.files.find? (fun f => f.id == se.file_entry_id) with
  | none => simp [hf]
  | some fe =>
    cases hb : lookupPath st.primary fe.storage_path with
    | none => simp [hf, hb, DB.add_log]
    | some blob =>
      cases hd : env.decrypt blob with
      | none => simp [hf, hb, hd, DB.add_log]
      | some plain => simp [hf, hb, hd, DB.add_log]

theorem snapStep_len (env : Env) (uid : Nat) (tgt : String)
    (acc : SysState × List SnapOk × List SnapFail) (se : SnapshotEntryR) :
    (restoreSnapshotStep env uid tgt acc se).2.1.length
      + (restoreSnapshotStep env uid tgt acc se).2.2.length
      = acc.2.1.length + acc.2.2.length + 1 := by
  rcases acc with ⟨st, succ, fails⟩
  unfold restoreSnapshotStep
  cases hf : st.db.files.find? (fun f => f.id == se.file_entry_id) with
  | none => simp [hf]; omega
  | some fe =>
    cases hb : lookupPath st.primary fe.storage_path with
    | none => simp [hf, hb]; omega
    | some blob =>
      cases hd : env.decrypt blob with
      | none => simp [hf, hb, hd]; omega
      | some plain => simp [hf, hb, hd]; omega

theorem snapFold_drevents (env : Env) (uid : Nat) (tgt : String)
    (l : List SnapshotEntryR) : ∀ acc,
    ((l.foldl (restoreSnapshotStep env uid tgt) acc).1.db.drevents) = acc.1.db.drevents := by
  induction l with
  | nil => intro acc; rfl
  | cons a l ih =>
      intro acc
      rw [List.foldl_cons, ih, snapStep_drevents]

theorem snapFold_len (env : Env) (uid : Nat) (tgt : String)
    (l : List SnapshotEntryR) : ∀ acc,
    (l.foldl (restoreSnapshotStep env uid tgt) acc).2.1.length
      + (l.foldl (restoreSnapshotStep env uid tgt) acc).2.2.length
      = acc.2.1.length + acc.2.2.length + l.length := by
  induction l with
  | nil => intro acc; simp
  | cons a l ih =>
      intro acc
      rw [List.foldl_cons]
      have := snapStep_len env uid tgt acc a
      rw [ih (restoreSnapshotStep env uid tgt acc a)]
      simp only [List.length_cons]
      omega

/-- Fixture entry for C8: version 1 of file number i, with id 10 plus i. -/
def feS (i : Nat) : FileEntryR :=
  ⟨10 + i, 1, "x" ++ toString i ++ ".txt", 1, "P" ++ toString i, none, false, false, false⟩

/-- Fixture for the C8 scenario: a snapshot (id 50) with three entries;
the blobs of entries 1 and 3 are present, the second blob is missing. -/
def stC8 : SysState :=
  ⟨{ db0 with
      users := [user1]
      files := [feS 1, feS 2, feS 3]
      snapshots := [⟨50, 1, none, none⟩]
      snapshot_entries := [⟨21, 50, 11⟩, ⟨22, 50, 12⟩, ⟨23, 50, 13⟩]
      otps := [⟨31, 1, "222222", 100, false⟩]
      next_id := 60 },
   [("P1", env0.encrypt [1]), ("P3", env0.encrypt [3])], [], []⟩

/-- C8 (confirmed): with the up-front OTP gate satisfied and a non-empty
snapshot, `restore_snapshot` processes every entry (successes plus failures
add up to the entry count), reports partial success with `ok=true` instead
of throwing, and appends exactly one `snapshot_restore` DR event recording
the two counts; on the concrete three-entry snapshot whose second blob is
missing it reports 2 successes and 1 failure with
`success=2 fail=1` in the event. -/
theorem C8_restore_snapshot_partial (env : Env) (st : SysState) (uid sid : Nat)
    (tgt c : String) (now : Nat) (notify : NotifyRes) (u : UserR) (o : OTPR)
    (hu : st.db.get_user uid = some u)
    (hotp : st.db.get_valid_otp uid (some c) now = some o)
    (hne : st.db.get_snapshot_entries sid ≠ []) :
    ((restore_snapshot env st uid sid tgt (some c) now notify).2.ok = true)
    ∧ ((restore_snapshot env st uid sid tgt (some c) now notify).2.restored.length
      + (restore_snapshot env st uid sid tgt (some c) now notify).2.failed.length
      = (st.db.get_snapshot_entries sid).length)
    ∧ (∃ i, (restore_snapshot env st uid sid tgt (some c) now notify).1.db.drevents
      = st.db.drevents ++ [⟨i, some uid, "snapshot_restore",
          "Snapshot " ++ toString sid ++ " restored: success="
            ++ toString (restore_snapshot env st uid sid tgt (some c) now notify).2.restored.length
            ++ " fail="
            ++ toString (restore_snapshot env st uid sid tgt (some c) now notify).2.failed.length,
          false⟩])
    ∧ ((restore_snapshot env0 stC8 1 50 "/restore" (some "222222") 10
        (NotifyRes.returns true)).2.restored
      = [⟨"x1.txt", 1, "/restore/x1.txt"⟩, ⟨"x3.txt", 1, "/restore/x3.txt"⟩]
      ∧ (restore_snapshot env0 stC8 1 50 "/restore" (some "222222") 10
          (NotifyRes.returns true)).2.failed.length = 1
      ∧ (∃ ev ∈ (restore_snapshot env0 stC8 1 50 "/restore" (some "222222") 10
          (NotifyRes.returns true)).1.db.drevents,
        ev.event_type = "snapshot_restore"
        ∧ ev.details = "Snapshot 50 restored: success=2 fail=1")) := by
  have hentries : (st.db.mark_otp_used o.id).get_snapshot_entries sid
      = st.db.get_snapshot_entries sid := by
    simp [DB.get_snapshot_entries, DB.mark_otp_used]
  have hdrev : (st.db.mark_otp_used o.id).drevents = st.db.drevents := by
    simp [DB.mark_otp_used]
  have hie : ((st.db.mark_otp_used o.id).get_snapshot_entries sid).isEmpty = false := by
    rw [hentries]
    cases h : st.db.get_snapshot_entries sid with
    | nil => exact absurd h hne
    | cons a l => rfl
  refine ⟨?_, ?_, ?_, by decide⟩
  · simp [restore_snapshot, hu, REQUIRE_OTP_FOR_SNAPSHOT_RESTORE, hotp, hie]
  · simp only [restore_snapshot, hu, REQUIRE_OTP_FOR_SNAPSHOT_RESTORE, if_true, hotp, hie,
      Bool.false_eq_true, if_false]
    rw [hentries]
    have := snapFold_len env uid tgt (st.db.get_snapshot_entries sid)
      ({ st with db := st.db.mark_otp_used o.id }, [], [])
    simpa using this
  · simp only [restore_snapshot, hu, REQUIRE_OTP_FOR_SNAPSHOT_RESTORE, if_true, hotp, hie,
      Bool.false_eq_true, if_false]
    rw [hentries]
    refine ⟨((st.db.get_snapshot_entries sid).foldl
      (restoreSnapshotStep env uid tgt)
      ({ st with db := st.db.mark_otp_used o.id }, [], [])).1.db.next_id, ?_⟩
    simp only [DB.record_dr_event]
    rw [snapFold_drevents]
    simp [hdrev]

/-- Witness for C8 at the three-entry fixture snapshot. -/
theorem C8_restore_snapshot_partial_witness :
    stC8.db.get_user 1 = some user1
    ∧ stC8.db.get_valid_otp 1 (some "222222") 10 = some ⟨31, 1, "222222", 100, false⟩
    ∧ stC8.db.get_snapshot_entries 50 ≠ []
    ∧ (((restore_snapshot env0 stC8 1 50 "/restore" (some "222222") 10
          (NotifyRes.returns true)).2.ok = true)
    ∧ ((restore_snapshot env0 stC8 1 50 "/restore" (some "222222") 10
          (NotifyRes.returns true)).2.restored.length
      + (restore_snapshot env0 stC8 1 50 "/restore" (some "222222") 10
          (NotifyRes.returns true)).2.failed.length
      = (stC8.db.get_snapshot_entries 50).length)
    ∧ (∃ i, (restore_snapshot env0 stC8 1 50 "/restore" (some "222222") 10
          (NotifyRes.returns true)).1.db.drevents
      = stC8.db.drevents ++ [⟨i, some 1, "snapshot_restore",
          "Snapshot " ++ toString 50 ++ " restored: success="
            ++ toString (restore_snapshot env0 stC8 1 50 "/restore" (some "222222") 10
                (NotifyRes.returns true)).2.restored.length
            ++ " fail="
            ++ toString (restore_snapshot env0 stC8 1 50 "/restore" (some "222222") 10
                (NotifyRes.returns true)).2.failed.length,
          false⟩])
    ∧ ((restore_snapshot env0 stC8 1 50 "/restore" (some "222222") 10
        (NotifyRes.returns true)).2.restored
      = [⟨"x1.txt", 1, "/restore/x1.txt"⟩, ⟨"x3.txt", 1, "/restore/x3.txt"⟩]
      ∧ (restore_snapshot env0 stC8 1 50 "/restore" (some "222222") 10
          (NotifyRes.returns true)).2.failed.length = 1
      ∧ (∃ ev ∈ (restore_snapshot env0 stC8 1 50 "/restore" (some "222222") 10
          (NotifyRes.returns true)).1.db.drevents,
        ev.event_type = "snapshot_restore"
        ∧ ev.details = "Snapshot 50 restored: success=2 fail=1"))) :=
  ⟨by decide, by decide, by decide,
   C8_restore_snapshot_partial env0 stC8 1 50 "/restore" "222222" 10
     (NotifyRes.returns true) user1 ⟨31, 1, "222222", 100, false⟩
     (by decide) (by decide) (by decide)⟩

-- ---------------------------------------------------------------------
-- C9: pending-upload obligations across worker steps
-- ---------------------------------------------------------------------

/-- Fixture system state with one pending upload in the durable queue. -/
def stQ : SysState := { stBase with db := { stBase.db with unsynced := [uC3] } }

/-- Initial worker state for C9. -/
def w0 : WState := ⟨stQ, []⟩

/-- Worker state right after the poll step: the queue row is deleted while
the item is held only in worker memory. -/
def w1 : WState :=
  ⟨{ w0.sys with db := (w0.sys.db.pop_unsynced_files 20).2 },
   (w0.sys.db.pop_unsynced_files 20).1⟩

/-- C9 (counterexample): the claim says an item is removed from the
`PendingUpload` queue only after its resulting state — a registered
`FileEntry` or a re-enqueued row — is durably recorded.  But
`pop_unsynced_files` deletes the rows at poll time: the state reached by
one `pop` step has the obligation in neither the durable queue nor the
`files` table. -/
theorem C9_pop_before_record_counterexample :
    WReach w0 w1 ∧ ¬ inQueue w1 uC3 ∧ ¬ registered w1 uC3 :=
  ⟨Relation.ReflTransGen.single (WStep.pop w0 rfl), by decide, by decide⟩

theorem processUnsynced_unsynced_mono {st : SysState} {ok : Bool} {u r : UnsyncedR}
    (hr : r ∈ st.db.unsynced) : r ∈ (processUnsynced st ok u).db.unsynced := by
  unfold processUnsynced upload_file
  cases hc : lookupPath st.fs u.local_path with
  | none =>
      simp only [DB.add_unsynced_file, DB.add_log, DB.record_dr_event]
      exact List.mem_append_left _ hr
  | some content =>
      cases ok with
      | true =>
          simp only [DB.add_file_entry, DB.create_snapshot, DB.add_snapshot_entry,
            DB.enqueue_replication, DB.add_log]
          exact hr
      | false =>
          simp only [DB.add_unsynced_file, DB.add_log, DB.record_dr_event]
          exact List.mem_append_left _ hr

theorem processUnsynced_files_mono {st : SysState} {ok : Bool} {u : UnsyncedR}
    {fe : FileEntryR} (hfe : fe ∈ st.db.files) :
    fe ∈ (processUnsynced st ok u).db.files := by
  unfold processUnsynced upload_file
  cases hc : lookupPath st.fs u.local_path with
  | none =>
      simp only [DB.add_unsynced_file, DB.add_log, DB.record_dr_event]
      exact hfe
  | some content =>
      cases ok with
      | true =>
          simp only [DB.add_file_entry, DB.create_snapshot, DB.add_snapshot_entry,
            DB.enqueue_replication, DB.add_log]
          exact List.mem_append_left _ hfe
      | false =>
          simp only [DB.add_unsynced_file, DB.add_log, DB.record_dr_event]
          exact hfe

theorem processUnsynced_outcome (st : SysState) (ok : Bool) (u : UnsyncedR) :
    (∃ fe ∈ (processUnsynced st ok u).db.files,
      fe.user_id = u.user_id ∧ fe.filename = u.filename)
    ∨ (∃ r ∈ (processUnsynced st ok u).db.unsynced,
      r.user_id = u.user_id ∧ r.local_path = u.local_path ∧ r.filename = u.filename) := by
  unfold processUnsynced upload_file
  cases hc : lookupPath st.fs u.local_path with
  | none =>
      refine Or.inr ?_
      simp only [DB.add_unsynced_file, DB.add_log, DB.record_dr_event]
      exact ⟨⟨_, u.user_id, u.local_path, u.filename, 0⟩,
        List.mem_append_right _ (List.mem_singleton.mpr rfl), rfl, rfl, rfl⟩
  | some content =>
      cases ok with
      | true =>
          refine Or.inl ?_
          simp only [DB.add_file_entry, DB.create_snapshot, DB.add_snapshot_entry,
            DB.enqueue_replication, DB.add_log]
          exact ⟨⟨_, u.user_id, u.filename, _, _, none, false, false, false⟩,
            List.mem_append_right _ (List.mem_singleton.mpr rfl), rfl, rfl⟩
      | false =>
          refine Or.inr ?_
          simp only [DB.add_unsynced_file, DB.add_log, DB.record_dr_event]
          exact ⟨⟨_, u.user_id, u.local_path, u.filename, 0⟩,
            List.mem_append_right _ (List.mem_singleton.mpr rfl), rfl, rfl, rfl⟩

theorem wstep_preserves_tracked (u : UnsyncedR) {a b : WState} (hstep : WStep a b)
    (h : inQueue a u ∨ inMem a u ∨ registered a u) :
    inQueue b u ∨ inMem b u ∨ registered b u := by
  cases hstep with
  | pop hmem =>
      rcases h with hq | hm | hr
      · rcases hq with ⟨r, hrmem, hru⟩
        have : r ∈ a.sys.db.unsynced.take 20 ++ a.sys.db.unsynced.drop 20 := by
          rw [List.take_append_drop]; exact hrmem
        rcases List.mem_append.mp this with hin | hin
        · exact Or.inr (Or.inl ⟨r, hin, hru⟩)
        · exact Or.inl ⟨r, hin, hru⟩
      · rcases hm with ⟨r, hrmem, _⟩
        rw [hmem] at hrmem
        cases hrmem
      · exact Or.inr (Or.inr hr)
  | proc u0 rest ok hmem =>
      rcases h with hq | hm | hr
      · rcases hq with ⟨r, hrmem, hru⟩
        exact Or.inl ⟨r, processUnsynced_unsynced_mono hrmem, hru⟩
      · rcases hm with ⟨r, hrmem, hru⟩
        rw [hmem] at hrmem
        rcases List.mem_cons.mp hrmem with hr0 | hrrest
        · subst hr0
          rcases processUnsynced_outcome a.sys ok r with ⟨fe, hfe, h1, h2⟩ | ⟨q, hq2, h1, h2, h3⟩
          · exact Or.inr (Or.inr ⟨fe, hfe, h1.trans hru.1, h2.trans hru.2.2⟩)
          · exact Or.inl ⟨q, hq2, h1.trans hru.1, h2.trans hru.2.1, h3.trans hru.2.2⟩
        · exact Or.inr (Or.inl ⟨r, hrrest, hru⟩)
      · rcases hr with ⟨fe, hfe, hfeu⟩
        exact Or.inr (Or.inr ⟨fe, processUnsynced_files_mono hfe, hfeu⟩)

/-- C9 (amended): the worker deletes queue rows at poll time, before
processing; what actually holds in every reachable worker state is that a
pending-upload obligation is never silently dropped — it is always either
still in the durable queue, or held in worker memory between the pop and
the completion of its processing, or registered as a `FileEntry`, or
re-enqueued as a fresh `PendingUpload` row (which is queue membership
again).  In the window where it exists only in worker memory, a crash
would lose it. -/
theorem C9_obligation_never_dropped (u : UnsyncedR) (s0 s : WState)
    (h0 : inQueue s0 u) (hreach : WReach s0 s) :
    inQueue s u ∨ inMem s u ∨ registered s u := by
  induction hreach with
  | refl => exact Or.inl h0
  | tail _ hstep ih => exact wstep_preserves_tracked u hstep ih

/-- Witness for the amended C9 theorem: after the single pop step the
obligation is held in worker memory. -/
theorem C9_obligation_never_dropped_witness :
    inQueue w0 uC3 ∧ (inQueue w1 uC3 ∨ inMem w1 uC3 ∨ registered w1 uC3) :=
  ⟨by decide,
   C9_obligation_never_dropped uC3 w0 w1 (by decide)
     (Relation.ReflTransGen.single (WStep.pop w0 rfl))⟩

-- ---------------------------------------------------------------------
-- C6: version allocation across sequential backups
-- ---------------------------------------------------------------------

@[simp] theorem add_log_files (db : DB) (u : Option Nat) (a d : String) :
    (db.add_log u a d).files = db.files := rfl

@[simp] theorem add_log_users (db : DB) (u : Option Nat) (a d : String) :
    (db.add_log u a d).users = db.users := rfl

@[simp] theorem add_log_next_id (db : DB) (u : Option Nat) (a d : String) :
    (db.add_log u a d).next_id = db.next_id := rfl

@[simp] theorem record_dr_event_files (db : DB) (u : Option Nat) (e d : String) :
    (db.record_dr_event u e d).files = db.files := rfl

@[simp] theorem record_dr_event_users (db : DB) (u : Option Nat) (e d : String) :
    (db.record_dr_event u e d).users = db.users := rfl

@[simp] theorem record_dr_event_next_id (db : DB) (u : Option Nat) (e d : String) :
    (db.record_dr_event u e d).next_id = db.next_id + 1 := rfl

@[simp] theorem create_snapshot_files (db : DB) (u : Nat) (n d : Option String) :
    (db.create_snapshot u n d).2.files = db.files := rfl

@[simp] theorem create_snapshot_users (db : DB) (u : Nat) (n d : Option String) :
    (db.create_snapshot u n d).2.users = db.users := rfl

@[simp] theorem create_snapshot_next_id (db : DB) (u : Nat) (n d : Option String) :
    (db.create_snapshot u n d).2.next_id = db.next_id + 1 := rfl

@[simp] theorem add_snapshot_entry_files (db : DB) (s f : Nat) :
    (db.add_snapshot_entry s f).files = db.files := rfl

@[simp] theorem add_snapshot_entry_users (db : DB) (s f : Nat) :
    (db.add_snapshot_entry s f).users = db.users := rfl

@[simp] theorem add_snapshot_entry_next_id (db : DB) (s f : Nat) :
    (db.add_snapshot_entry s f).next_id = db.next_id + 1 := rfl

@[simp] theorem enqueue_replication_files (db : DB) (f : Nat) (p : String) :
    (db.enqueue_replication f p).files = db.files := rfl

@[simp] theorem enqueue_replication_users (db : DB) (f : Nat) (p : String) :
    (db.enqueue_replication f p).users = db.users := rfl

@[simp] theorem enqueue_replication_next_id (db : DB) (f : Nat) (p : String) :
    (db.enqueue_replication f p).next_id = db.next_id + 1 := rfl

@[simp] theorem add_file_entry_files (db : DB) (u : Nat) (f : String) (v : Nat)
    (p : String) (c : Option String) :
    (db.add_file_entry u f v p c).2.files
      = db.files ++ [(db.add_file_entry u f v p c).1] := rfl

@[simp] theorem add_file_entry_users (db : DB) (u : Nat) (f : String) (v : Nat)
    (p : String) (c : Option String) :
    (db.add_file_entry u f v p c).2.users = db.users := rfl

@[simp] theorem add_file_entry_next_id (db : DB) (u : Nat) (f : String) (v : Nat)
    (p : String) (c : Option String) :
    (db.add_file_entry u f v p c).2.next_id = db.next_id + 1 := rfl

theorem prune_users (db : DB) (uid : Nat) (fname : String) (keep : Nat) :
    (db.prune_old_versions uid fname keep).2.users = db.users := by
  unfold DB.prune_old_versions
  dsimp only
  split <;> rfl

theorem prune_next_id (db : DB) (uid : Nat) (fname : String) (keep : Nat) :
    (db.prune_old_versions uid fname keep).2.next_id = db.next_id := by
  unfold DB.prune_old_versions
  dsimp only
  split <;> rfl

/-- The files table after pruning is a sublist of the one before. -/
theorem prune_files_sublist (db : DB) (uid : Nat) (fname : String) (keep : Nat) :
    (db.prune_old_versions uid fname keep).2.files.Sublist db.files := by
  unfold DB.prune_old_versions
  dsimp only
  split
  · exact List.Sublist.refl _
  · exact List.filter_sublist _

theorem get_latest_congr {db1 db2 : DB} (h : db1.files = db2.files)
    (uid : Nat) (fname : String) :
    db1.get_latest_version uid fname = db2.get_latest_version uid fname := by
  unfold DB.get_latest_version DB.get_file_entries DB.liveEntries
  rw [h]

theorem liveEntries_congr {db1 db2 : DB} (h : db1.files = db2.files)
    (uid : Nat) (fname : String) :
    db1.liveEntries uid fname = db2.liveEntries uid fname := by
  unfold DB.liveEntries
  rw [h]

/-- Well-formedness is preserved by any change that keeps the files table
and does not decrease the allocator. -/
theorem WF_of_files_eq {db1 db2 : DB} (hwf : WFdb db1) (hf : db2.files = db1.files)
    (hn : db1.next_id ≤ db2.next_id) : WFdb db2 := by
  refine ⟨by rw [hf]; exact hwf.1, ?_⟩
  intro f hfm
  rw [hf] at hfm
  exact Nat.lt_of_lt_of_le (hwf.2 f hfm) hn

theorem WF_add_file_entry {db : DB} (hwf : WFdb db) (u : Nat) (f : String) (v : Nat)
    (p : String) (c : Option String) : WFdb (db.add_file_entry u f v p c).2 := by
  constructor
  · simp only [add_file_entry_files, List.map_append]
    rw [List.nodup_append]
    refine ⟨hwf.1, List.nodup_singleton _, ?_⟩
    intro x hx hy
    simp only [DB.add_file_entry, List.map_cons, List.map_nil, List.mem_singleton] at hy
    rcases List.mem_map.mp hx with ⟨e, he, hex⟩
    have := hwf.2 e he
    omega
  · intro f hf
    simp only [add_file_entry_files] at hf
    rcases List.mem_append.mp hf with h | h
    · have := hwf.2 _ h
      simp only [add_file_entry_next_id]
      omega
    · simp only [List.mem_singleton] at h
      subst h
      simp [DB.add_file_entry]

theorem WF_prune {db : DB} (hwf : WFdb db) (uid : Nat) (fname : String) (keep : Nat) :
    WFdb (db.prune_old_versions uid fname keep).2 := by
  constructor
  · exact hwf.1.sublist ((prune_files_sublist db uid fname keep).map _)
  · intro f hf
    rw [prune_next_id]
    exact hwf.2 f ((prune_files_sublist db uid fname keep).mem hf)

/-- An attained upper bound characterises `get_latest_version`. -/
theorem get_latest_eq_of {db : DB} {uid : Nat} {fname : String} {e : FileEntryR}
    {v : Nat} (h1 : e ∈ db.liveEntries uid fname) (h2 : e.version = v)
    (h3 : ∀ f ∈ db.liveEntries uid fname, f.version ≤ v) :
    db.get_latest_version uid fname = v := by
  have hne : db.liveEntries uid fname ≠ [] := by
    intro hnil; rw [hnil] at h1; cases h1
  rcases get_latest_version_mem hne with ⟨m, hm, hmv⟩
  have hle : db.get_latest_version uid fname ≤ v := hmv ▸ h3 m hm
  have hge : v ≤ db.get_latest_version uid fname := h2 ▸ get_latest_version_ge h1
  omega

/-- The live set after a real prune is a permutation of the kept prefix of
the version-descending sort. -/
theorem prune_live_perm {db : DB} (hwf : WFdb db) (uid : Nat) (fname : String)
    (keep : Nat) (hgt : keep < (sortVerDesc (db.liveEntries uid fname)).length) :
    ((db.prune_old_versions uid fname keep).2.liveEntries uid fname).Perm
      ((sortVerDesc (db.liveEntries uid fname)).take keep) := by
  have hnodupLive : (db.liveEntries uid fname).Nodup := live_nodup hwf uid fname
  have hnodupEntries : (sortVerDesc (db.liveEntries uid fname)).Nodup :=
    ((sortVerDesc_perm _).nodup_iff).mpr hnodupLive
  have hdisj : List.Disjoint ((sortVerDesc (db.liveEntries uid fname)).take keep)
      ((sortVerDesc (db.liveEntries uid fname)).drop keep) :=
    List.disjoint_take_drop hnodupEntries (Nat.le_refl keep)
  have hsubDrop : ∀ e ∈ (sortVerDesc (db.liveEntries uid fname)).drop keep,
      e ∈ db.liveEntries uid fname := fun e he =>
    mem_sortVerDesc.mp (List.mem_of_mem_drop he)
  have hfiltTake : ((sortVerDesc (db.liveEntries uid fname)).take keep).filter
      (fun f => !(((sortVerDesc (db.liveEntries uid fname)).drop keep).any
        (fun e => e.id == f.id)))
      = (sortVerDesc (db.liveEntries uid fname)).take keep := by
    apply List.filter_eq_self.mpr
    intro a ha
    have hfa : a ∈ db.files :=
      (mem_liveEntries.mp (mem_sortVerDesc.mp (List.mem_of_mem_take ha))).1
    have : ¬ (((sortVerDesc (db.liveEntries uid fname)).drop keep).any
        (fun e => e.id == a.id) = true) := by
      intro hany
      exact hdisj ha ((any_id_match_iff hwf hsubDrop hfa).mp hany)
    simp only [Bool.not_eq_true'] at this ⊢
    simp [this]
  have hfiltDrop : ((sortVerDesc (db.liveEntries uid fname)).drop keep).filter
      (fun f => !(((sortVerDesc (db.liveEntries uid fname)).drop keep).any
        (fun e => e.id == f.id))) = [] := by
    apply List.filter_eq_nil_iff.mpr
    intro a ha
    simp only [Bool.not_eq_true', Bool.not_eq_false]
    exact List.any_eq_true.mpr ⟨a, ha, by simp⟩
  rw [prune_live_filter uid fname keep hgt]
  calc (db.liveEntries uid fname).filter
        (fun f => !(((sortVerDesc (db.liveEntries uid fname)).drop keep).any
          (fun e => e.id == f.id)))
      |>.Perm ((((sortVerDesc (db.liveEntries uid fname)).take keep
          ++ (sortVerDesc (db.liveEntries uid fname)).drop keep)).filter
        (fun f => !(((sortVerDesc (db.liveEntries uid fname)).drop keep).any
          (fun e => e.id == f.id)))) := by
        exact List.Perm.filter _
          (by rw [List.take_append_drop]; exact (sortVerDesc_perm _).symm)
    _ = (sortVerDesc (db.liveEntries uid fname)).take keep := by
        rw [List.filter_append, hfiltTake, hfiltDrop, List.append_nil]

/-- Pruning with a positive retention never changes the latest version. -/
theorem prune_keeps_max {db : DB} (hwf : WFdb db) (uid : Nat) (fname : String)
    {keep : Nat} (hkeep : 1 ≤ keep) :
    (db.prune_old_versions uid fname keep).2.get_latest_version uid fname
      = db.get_latest_version uid fname := by
  by_cases hc : (sortVerDesc (db.liveEntries uid fname)).length ≤ keep
  · have : db.prune_old_versions uid fname keep = ([], db) := by
      unfold DB.prune_old_versions
      rw [if_pos hc]
    rw [this]
  · have hgt : keep < (sortVerDesc (db.liveEntries uid fname)).length := by omega
    have hperm := prune_live_perm hwf uid fname keep hgt
    -- the kept prefix is non-empty
    have hkeptlen : ((sortVerDesc (db.liveEntries uid fname)).take keep).length = keep := by
      simp [List.length_take, Nat.min_eq_left (Nat.le_of_lt hgt)]
    have hne2 : (db.prune_old_versions uid fname keep).2.liveEntries uid fname ≠ [] := by
      intro hnil
      have := hperm.length_eq
      rw [hnil, hkeptlen] at this
      simp at this
      omega
    -- dominance of the kept prefix over the dropped suffix
    have hsorted : List.Pairwise verDesc ((sortVerDesc (db.liveEntries uid fname)).take keep
        ++ (sortVerDesc (db.liveEntries uid fname)).drop keep) := by
      rw [List.take_append_drop]
      exact sortVerDesc_sorted _
    have hdom := (List.pairwise_append.mp hsorted).2.2
    -- each direction
    rcases get_latest_version_mem hne2 with ⟨e, he, hev⟩
    have hkept_sub : ∀ x ∈ (db.prune_old_versions uid fname keep).2.liveEntries uid fname,
        x ∈ db.liveEntries uid fname := by
      intro x hx
      exact mem_sortVerDesc.mp
        (List.mem_of_mem_take (hperm.mem_iff.mp hx))
      -- note: members of the kept prefix are members of the sorted list
    have hle : (db.prune_old_versions uid fname keep).2.get_latest_version uid fname
        ≤ db.get_latest_version uid fname := by
      rw [← hev]
      exact get_latest_version_ge (hkept_sub e he)
    have hlive_ne : db.liveEntries uid fname ≠ [] := by
      intro hnil
      rw [hnil] at hgt
      simp [sortVerDesc, List.insertionSort] at hgt
    rcases get_latest_version_mem hlive_ne with ⟨m, hm, hmv⟩
    have hmsort : m ∈ (sortVerDesc (db.liveEntries uid fname)).take keep
        ++ (sortVerDesc (db.liveEntries uid fname)).drop keep := by
      rw [List.take_append_drop]
      exact mem_sortVerDesc.mpr hm
    have hge : db.get_latest_version uid fname
        ≤ (db.prune_old_versions uid fname keep).2.get_latest_version uid fname := by
      rcases List.mem_append.mp hmsort with htake | hdrop
      · have hmkept : m ∈ (db.prune_old_versions uid fname keep).2.liveEntries uid fname :=
          hperm.mem_iff.mpr htake
        rw [← hmv]
        exact get_latest_version_ge hmkept
      · have heTake : e ∈ (sortVerDesc (db.liveEntries uid fname)).take keep :=
          hperm.mem_iff.mp he
        have hrel := hdom e heTake m hdrop
        rw [← hmv, ← hev]
        exact hrel
    omega

theorem foldl_delete_db (l : List (Nat × String)) : ∀ s : SysState,
    (l.foldl (fun s r => (delete_blob s r.2).1) s).db = s.db := by
  induction l with
  | nil => intro s; rfl
  | cons a l ih => intro s; rw [List.foldl_cons]; exact ih _

theorem foldl_delete_fs (l : List (Nat × String)) : ∀ s : SysState,
    (l.foldl (fun s r => (delete_blob s r.2).1) s).fs = s.fs := by
  induction l with
  | nil => intro s; rfl
  | cons a l ih => intro s; rw [List.foldl_cons]; exact ih _

theorem get_latest_empty {db : DB} {uid : Nat} {fname : String}
    (h : db.liveEntries uid fname = []) : db.get_latest_version uid fname = 0 := by
  unfold DB.get_latest_version DB.get_file_entries
  rw [h]
  rfl

theorem get_user_congr {db1 db2 : DB} (h : db1.users = db2.users) (uid : Nat) :
    db1.get_user uid = db2.get_user uid := by
  unfold DB.get_user
  rw [h]

/-- Registering one fresh entry one version above the previous maximum and
then pruning with positive retention moves the latest version up by one. -/
theorem latest_after_register_prune (db0 dbMid : DB) (uid : Nat) (fname : String)
    (fe : FileEntryR) (keep : Nat) (hkeep : 1 <= keep)
    (hfiles : dbMid.files = db0.files ++ [fe])
    (hfe_user : fe.user_id = uid) (hfe_name : fe.filename = fname)
    (hfe_del : fe.deleted = false)
    (hfe_ver : fe.version = db0.get_latest_version uid fname + 1)
    (hwfMid : WFdb dbMid) :
    (dbMid.prune_old_versions uid fname keep).2.get_latest_version uid fname
      = db0.get_latest_version uid fname + 1 := by
  rw [prune_keeps_max hwfMid uid fname hkeep]
  have hfe_mem : fe ∈ dbMid.liveEntries uid fname :=
    mem_liveEntries.mpr ⟨by rw [hfiles]; exact List.mem_append_right _ (List.mem_singleton.mpr rfl),
      hfe_user, hfe_name, hfe_del⟩
  apply get_latest_eq_of hfe_mem hfe_ver
  intro f hf
  rcases mem_liveEntries.mp hf with ⟨hfm, h1, h2, h3⟩
  rw [hfiles] at hfm
  rcases List.mem_append.mp hfm with hl | hr
  · have : f ∈ db0.liveEntries uid fname := mem_liveEntries.mpr ⟨hl, h1, h2, h3⟩
    have := get_latest_version_ge this
    omega
  · rw [List.mem_singleton.mp hr, hfe_ver]

/-- One successful backup: the caller receives the entry carrying version
`latest + 1`, and afterwards the latest version is exactly that, with the
store still well-formed and users and filesystem untouched. -/
theorem backup_success (env : Env) (st : SysState) (uid : Nat)
    (path : String) (u : UserR) (content : Bytes)
    (hu : st.db.get_user uid = some u)
    (hc : lookupPath st.fs path = some content)
    (hwf : WFdb st.db) :
    (∃ fe, (perform_manual_backup env true (NotifyRes.returns true) st uid path).2
        = Except.ok fe
      ∧ fe.version = st.db.get_latest_version uid (basenameOf path) + 1)
    ∧ (perform_manual_backup env true (NotifyRes.returns true) st uid path).1.db.get_latest_version
        uid (basenameOf path) = st.db.get_latest_version uid (basenameOf path) + 1
    ∧ WFdb (perform_manual_backup env true (NotifyRes.returns true) st uid path).1.db
    ∧ (perform_manual_backup env true (NotifyRes.returns true) st uid path).1.db.get_user uid
        = some u
    ∧ (perform_manual_backup env true (NotifyRes.returns true) st uid path).1.fs = st.fs := by
  simp only [perform_manual_backup, hu, hc, upload_file]
  set fname := basenameOf path with hfname
  set latest := st.db.get_latest_version uid fname with hlatest
  set dest := storagePathOf uid fname (latest + 1) with hdest
  set A := st.db.add_log (some uid) "upload_success"
    ("Uploaded " ++ fname ++ " v" ++ toString (latest + 1) ++ " to " ++ dest) with hA
  set PF := A.add_file_entry uid fname (latest + 1) dest
    (some (env.sha (env.encrypt content))) with hPF
  set SN := PF.2.create_snapshot uid (some (fname ++ "-v" ++ toString (latest + 1)))
    (some ("Auto snapshot for " ++ fname ++ ":v" ++ toString (latest + 1))) with hSN
  set db4 := (SN.2.add_snapshot_entry SN.1.id PF.1.id).enqueue_replication PF.1.id dest
    with hdb4
  have hAfiles : A.files = st.db.files := by rw [hA]; simp
  have hAusers : A.users = st.db.users := by rw [hA]; simp
  have hAnext : A.next_id = st.db.next_id := by rw [hA]; simp
  have hfe_def : PF.1 = ⟨A.next_id, uid, fname, latest + 1, dest,
      some (env.sha (env.encrypt content)), false, false, false⟩ := by
    rw [hPF]; rfl
  have hdb4files : db4.files = st.db.files ++ [PF.1] := by
    rw [hdb4, hSN, hPF]
    simp [hAfiles]
  have hdb4users : db4.users = st.db.users := by
    rw [hdb4, hSN, hPF]
    simp [hAusers]
  have hlatestA : A.get_latest_version uid fname = latest := by
    rw [hlatest]
    exact get_latest_congr hAfiles uid fname
  have hwfA : WFdb A := WF_of_files_eq hwf (by rw [hAfiles]) (by rw [hAnext])
  have hwfPF : WFdb PF.2 := by
    rw [hPF]
    exact WF_add_file_entry hwfA uid fname (latest + 1) dest
      (some (env.sha (env.encrypt content)))
  have hwfdb4 : WFdb db4 := by
    apply WF_of_files_eq hwfPF
    · rw [hdb4, hSN]; simp
    · rw [hdb4, hSN]; simp; omega
  have hfe_live : PF.1.user_id = uid ∧ PF.1.filename = fname ∧ PF.1.deleted = false
      ∧ PF.1.version = latest + 1 := by
    rw [hfe_def]
    exact ⟨rfl, rfl, rfl, rfl⟩
  have hprune : (db4.prune_old_versions uid fname MAX_VERSIONS).2.get_latest_version uid fname
      = latest + 1 := by
    have := latest_after_register_prune st.db db4 uid fname PF.1 MAX_VERSIONS
      (by decide) hdb4files hfe_live.1 hfe_live.2.1 hfe_live.2.2.1
      (by rw [hfe_live.2.2.2, hlatest]) hwfdb4
    rw [this, hlatest]
  refine ⟨⟨PF.1, rfl, hfe_live.2.2.2⟩, ?_, ?_, ?_, ?_⟩
  · rw [foldl_delete_db]
    calc (((db4.prune_old_versions uid fname MAX_VERSIONS).2).add_log (some uid) "backup"
          (fname ++ " v" ++ toString (latest + 1) ++ " backed up to " ++ dest)).get_latest_version
            uid fname
        = (db4.prune_old_versions uid fname MAX_VERSIONS).2.get_latest_version uid fname :=
          get_latest_congr (by simp) uid fname
      _ = latest + 1 := hprune
  · rw [foldl_delete_db]
    apply WF_of_files_eq (WF_prune hwfdb4 uid fname MAX_VERSIONS)
    · simp
    · simp [prune_next_id]
  · rw [foldl_delete_db]
    have husers : (((db4.prune_old_versions uid fname MAX_VERSIONS).2).add_log (some uid)
        "backup" (fname ++ " v" ++ toString (latest + 1) ++ " backed up to " ++ dest)).users
        = st.db.users := by
      rw [add_log_users, prune_users, hdb4users]
    rw [get_user_congr husers uid]
    exact hu
  · rw [foldl_delete_fs]

/-- A run of `n` sequential backups of the same local file, collecting the
version numbers of the entries returned by the successful calls. -/
def backupSeq (env : Env) (st : SysState) (uid : Nat) (path : String) :
    Nat → SysState × List Nat
  | 0 => (st, [])
  | n + 1 =>
      let prev := backupSeq env st uid path n
      let res := perform_manual_backup env true (NotifyRes.returns true) prev.1 uid path
      match res.2 with
      | Except.ok fe => (res.1, prev.2 ++ [fe.version])
      | Except.error _ => (res.1, prev.2)

theorem backupSeq_invariant (env : Env) (st : SysState) (uid : Nat) (path : String)
    (u : UserR) (content : Bytes)
    (hu : st.db.get_user uid = some u)
    (hc : lookupPath st.fs path = some content)
    (hwf : WFdb st.db)
    (hempty : st.db.liveEntries uid (basenameOf path) = []) :
    ∀ n,
      (backupSeq env st uid path n).1.db.get_user uid = some u
      ∧ (backupSeq env st uid path n).1.fs = st.fs
      ∧ WFdb (backupSeq env st uid path n).1.db
      ∧ (backupSeq env st uid path n).1.db.get_latest_version uid (basenameOf path) = n
      ∧ (backupSeq env st uid path n).2 = List.range' 1 n := by
  intro n
  induction n with
  | zero => exact ⟨hu, rfl, hwf, get_latest_empty hempty, rfl⟩
  | succ n ih =>
      obtain ⟨ihu, ihfs, ihwf, ihlatest, ihvs⟩ := ih
      obtain ⟨⟨fe, hfe, hfever⟩, hlat2, hwf2, hu2, hfs2⟩ :=
        backup_success env (backupSeq env st uid path n).1 uid path u content ihu
          (by rw [ihfs]; exact hc) ihwf
      have hstep : backupSeq env st uid path (n + 1)
          = ((perform_manual_backup env true (NotifyRes.returns true)
              (backupSeq env st uid path n).1 uid path).1,
             (backupSeq env st uid path n).2 ++ [fe.version]) := by
        simp only [backupSeq, hfe]
      rw [hstep]
      refine ⟨hu2, by rw [hfs2, ihfs], hwf2, by rw [hlat2, ihlatest], ?_⟩
      rw [ihvs, hfever, ihlatest]
      simpa [Nat.one_mul, Nat.add_comm] using (@List.range'_concat 1 1 n).symm

/-- C6 (confirmed): starting from a well-formed store with no live versions
of the file, `n` sequential successful backups allocate exactly the
versions `1, 2, …, n` in order — strictly increasing with no gaps, never
reusing a number even after pruning has removed the entry that carried it —
and every single successful backup allocates the current maximum plus one,
defaulting to 1 when no version exists. -/
theorem C6_version_allocation (env : Env) (st : SysState) (uid : Nat)
    (path : String) (u : UserR) (content : Bytes)
    (hu : st.db.get_user uid = some u)
    (hc : lookupPath st.fs path = some content)
    (hwf : WFdb st.db)
    (hempty : st.db.liveEntries uid (basenameOf path) = []) :
    (∀ n, (backupSeq env st uid path n).2 = List.range' 1 n)
    ∧ (∀ n, (backupSeq env st uid path n).2.Nodup)
    ∧ (∀ (st2 : SysState) (u2 : UserR) (c2 : Bytes) (fe : FileEntryR),
        st2.db.get_user uid = some u2 →
        lookupPath st2.fs path = some c2 →
        WFdb st2.db →
        (perform_manual_backup env true (NotifyRes.returns true) st2 uid path).2
          = Except.ok fe →
        fe.version = st2.db.get_latest_version uid (basenameOf path) + 1) := by
  refine ⟨?_, ?_, ?_⟩
  · intro n
    exact (backupSeq_invariant env st uid path u content hu hc hwf hempty n).2.2.2.2
  · intro n
    rw [(backupSeq_invariant env st uid path u content hu hc hwf hempty n).2.2.2.2]
    exact List.nodup_range' 1 n
  · intro st2 u2 c2 fe hu2 hc2 hwf2 hok
    obtain ⟨⟨fe2, hfe2, hfe2v⟩, _, _, _, _⟩ :=
      backup_success env st2 uid path u2 c2 hu2 hc2 hwf2
    rw [hok] at hfe2
    cases hfe2
    exact hfe2v

/-- Witness for C6 at the fixture state, running three backups. -/
theorem C6_version_allocation_witness :
    stBase.db.get_user 1 = some user1
    ∧ lookupPath stBase.fs "/home/a.txt" = some [104, 105]
    ∧ WFdb stBase.db
    ∧ stBase.db.liveEntries 1 (basenameOf "/home/a.txt") = []
    ∧ (backupSeq env0 stBase 1 "/home/a.txt" 4).2 = List.range' 1 4 :=
  ⟨by decide, by decide, by decide, by decide,
   (C6_version_allocation env0 stBase 1 "/home/a.txt" user1 [104, 105]
     (by decide) (by decide) (by decide) (by decide)).1 4⟩

-- ---------------------------------------------------------------------
-- C7: notification-channel failures
-- ---------------------------------------------------------------------

/-- The state with the purely observational fields (log lines and texts
handed to the notification boundary) erased: two runs that agree under
`coreOf` have the same durable effect. -/
def coreOf (st : SysState) : SysState :=
  { st with db := { st.db with logs := [] }, notified := [] }

/-- C7 (counterexample): in `start_restore_request` the `send_alert` call
is not wrapped in try/except, so a raising notification channel propagates
the exception out of the operation — after the OTP row has already been
persisted.  This contradicts the claim that a notification failure is
always swallowed and that requestCode returns normally. -/
theorem C7_request_raise_counterexample :
    (start_restore_request stBase 1 "a.txt" NotifyRes.raises "123456" 10).2
      = Except.error "AttributeError in send_alert"
    ∧ (∃ o ∈ (start_restore_request stBase 1 "a.txt" NotifyRes.raises "123456" 10).1.db.otps,
        o.user_id = 1 ∧ o.code = "123456" ∧ o.used = false) := by
  decide

/-- C7 (amended): the notification outcome — returned boolean or raise —
never changes the result or the durable state of a backup, of a single-file
restore, of a snapshot restore, or of a DR alert (`_safe_alert` catches the
raise); `otp.request` also swallows a raising channel, persists the code,
and reports delivery failure in its returned result rather than raising;
but `start_restore_request` propagates a raising channel as an exception
(with the code already persisted), and reports a false-returning channel as
a failed result. -/
theorem C7_notify_failure_handling :
    (∀ (env : Env) (ok : Bool) (st : SysState) (uid : Nat) (path : String)
        (n₁ n₂ : NotifyRes),
      (perform_manual_backup env ok n₁ st uid path).2
        = (perform_manual_backup env ok n₂ st uid path).2
      ∧ coreOf (perform_manual_backup env ok n₁ st uid path).1
        = coreOf (perform_manual_backup env ok n₂ st uid path).1)
    ∧ (∀ (env : Env) (st : SysState) (uid : Nat) (fn : String) (v : Option Nat)
        (tgt : String) (code : Option String) (now : Nat) (n₁ n₂ : NotifyRes),
      (perform_restore env st uid fn v tgt code now n₁).2
        = (perform_restore env st uid fn v tgt code now n₂).2
      ∧ coreOf (perform_restore env st uid fn v tgt code now n₁).1
        = coreOf (perform_restore env st uid fn v tgt code now n₂).1)
    ∧ (∀ (env : Env) (st : SysState) (uid sid : Nat) (tgt : String)
        (code : Option String) (now : Nat) (n₁ n₂ : NotifyRes),
      restore_snapshot env st uid sid tgt code now n₁
        = restore_snapshot env st uid sid tgt code now n₂)
    ∧ (∀ (st : SysState) (uid : Nat) (text : String) (n : NotifyRes),
      coreOf (safe_alert st uid text n).1 = coreOf st)
    ∧ (∀ (st : SysState) (uid : Nat) (purpose code : String) (now : Nat)
        (u : UserR), st.db.get_user uid = some u →
      (∃ o ∈ (otpRequest st uid purpose NotifyRes.raises code now).1.db.otps,
        o.user_id = uid ∧ o.code = code ∧ o.used = false)
      ∧ (otpRequest st uid purpose NotifyRes.raises code now).2.ok = false)
    ∧ (∀ (st : SysState) (uid : Nat) (fn code : String) (now : Nat) (u : UserR),
        st.db.get_user uid = some u →
      (start_restore_request st uid fn NotifyRes.raises code now).2
        = Except.error "AttributeError in send_alert"
      ∧ (∃ o ∈ (start_restore_request st uid fn NotifyRes.raises code now).1.db.otps,
        o.user_id = uid ∧ o.code = code ∧ o.used = false)) := by
  refine ⟨?_, ?_, ?_, ?_, ?_, ?_⟩
  · intro env ok st uid path n₁ n₂
    cases hu : st.db.get_user uid with
    | none => simp [perform_manual_backup, hu]
    | some u =>
      cases hc : lookupPath st.fs path with
      | none => simp [perform_manual_backup, hu, hc]
      | some content =>
        simp only [perform_manual_backup, hu, hc]
        rcases hup : upload_file st ok uid (basenameOf path)
          (st.db.get_latest_version uid (basenameOf path) + 1)
          (some (env.encrypt content)) with ⟨stUp, r⟩
        cases r with
        | error e => simp
        | ok sp => cases n₁ <;> cases n₂ <;> simp [coreOf, DB.add_log]
  · intro env st uid fn v tgt code now n₁ n₂
    cases hu : st.db.get_user uid with
    | none => simp [perform_restore, hu]
    | some u =>
      cases hv : st.db.get_valid_otp uid code now with
      | none => simp [perform_restore, hu, hv]
      | some o =>
        simp only [perform_restore, hu, hv]
        cases v with
        | none =>
          cases hent : (({ st with db := st.db.mark_otp_used o.id } : SysState).db.get_file_entries
              uid fn).head? with
          | none => simp [hent]
          | some entry =>
            simp only [hent]
            cases hb : lookupPath ({ st with db := st.db.mark_otp_used o.id } :
                SysState).primary entry.storage_path with
            | none => simp [hb]
            | some blob =>
              cases hd : env.decrypt blob with
              | none => simp [hb, hd]
              | some plain =>
                cases n₁ <;> cases n₂ <;> simp [hb, hd, coreOf, DB.add_log]
        | some vv =>
          cases hent : ({ st with db := st.db.mark_otp_used o.id } : SysState).db.get_file_entry
              uid fn vv with
          | none => simp [hent]
          | some entry =>
            simp only [hent]
            cases hb : lookupPath ({ st with db := st.db.mark_otp_used o.id } :
                SysState).primary entry.storage_path with
            | none => simp [hb]
            | some blob =>
              cases hd : env.decrypt blob with
              | none => simp [hb, hd]
              | some plain =>
                cases n₁ <;> cases n₂ <;> simp [hb, hd, coreOf, DB.add_log]
  · intro env st uid sid tgt code now n₁ n₂
    rfl
  · intro st uid text n
    unfold safe_alert
    cases hu : st.db.get_user uid with
    | none => simp [coreOf, DB.add_log]
    | some u =>
      cases hch : u.telegram_chat_id with
      | none => simp [hch, coreOf, DB.add_log]
      | some chat =>
        cases n <;> simp [hch, coreOf, DB.add_log]
  · intro st uid purpose code now u hu
    simp only [otpRequest, hu, DB.create_otp_record, DB.add_log, DB.record_dr_event]
    constructor
    · exact ⟨⟨st.db.next_id, uid, code, now + OTP_EXPIRY_SECONDS, false⟩,
        List.mem_append_right _ (List.mem_singleton.mpr rfl), rfl, rfl, rfl⟩
    · rfl
  · intro st uid fn code now u hu
    simp only [start_restore_request, hu, DB.create_otp_record]
    exact ⟨trivial, ⟨st.db.next_id, uid, code, now + OTP_EXPIRY_SECONDS, false⟩,
      List.mem_append_right _ (List.mem_singleton.mpr rfl), rfl, rfl, rfl⟩

/-- Witness for the amended C7 theorem: concrete instances of each clause,
discharging the user-existence hypotheses at the fixture state. -/
theorem C7_notify_failure_handling_witness :
    stBase.db.get_user 1 = some user1
    ∧ ((perform_manual_backup env0 true NotifyRes.raises stBase 1 "/home/a.txt").2
        = (perform_manual_backup env0 true (NotifyRes.returns true) stBase 1 "/home/a.txt").2)
    ∧ ((∃ o ∈ (otpRequest stBase 1 "restore" NotifyRes.raises "654321" 10).1.db.otps,
        o.user_id = 1 ∧ o.code = "654321" ∧ o.used = false)
      ∧ (otpRequest stBase 1 "restore" NotifyRes.raises "654321" 10).2.ok = false)
    ∧ ((start_restore_request stBase 1 "a.txt" NotifyRes.raises "654321" 10).2
        = Except.error "AttributeError in send_alert"
      ∧ (∃ o ∈ (start_restore_request stBase 1 "a.txt" NotifyRes.raises "654321"
          10).1.db.otps, o.user_id = 1 ∧ o.code = "654321" ∧ o.used = false)) :=
  ⟨by decide,
   (C7_notify_failure_handling.1 env0 true stBase 1 "/home/a.txt" NotifyRes.raises
     (NotifyRes.returns true)).1,
   C7_notify_failure_handling.2.2.2.2.1 stBase 1 "restore" "654321" 10 user1 (by decide),
   C7_notify_failure_handling.2.2.2.2.2 stBase 1 "a.txt" "654321" 10 user1 (by decide)⟩

-- ---------------------------------------------------------------------
-- C10: snapshot restore performs no ownership check
-- ---------------------------------------------------------------------

/-- Replace the snapshots table (in particular, any snapshot owner). -/
def setSnaps (st : SysState) (l : List SnapshotR) : SysState :=
  { st with db := { st.db with snapshots := l } }

@[simp] theorem setSnaps_get_user (st : SysState) (l : List SnapshotR) (uid : Nat) :
    (setSnaps st l).db.get_user uid = st.db.get_user uid := rfl

@[simp] theorem setSnaps_get_valid_otp (st : SysState) (l : List SnapshotR)
    (uid : Nat) (c : Option String) (now : Nat) :
    (setSnaps st l).db.get_valid_otp uid c now = st.db.get_valid_otp uid c now := rfl

@[simp] theorem setSnaps_entries (st : SysState) (l : List SnapshotR) (sid : Nat) :
    (setSnaps st l).db.get_snapshot_entries sid = st.db.get_snapshot_entries sid := rfl

theorem snapStep_setSnaps (env : Env) (uid : Nat) (tgt : String) (l : List SnapshotR)
    (acc : SysState × List SnapOk × List SnapFail) (se : SnapshotEntryR) :
    restoreSnapshotStep env uid tgt (setSnaps acc.1 l, acc.2.1, acc.2.2) se
      = (setSnaps (restoreSnapshotStep env uid tgt acc se).1 l,
         (restoreSnapshotStep env uid tgt acc se).2.1,
         (restoreSnapshotStep env uid tgt acc se).2.2) := by
  rcases acc with ⟨st, succ, fails⟩
  unfold restoreSnapshotStep
  cases hf : st.db.files.find? (fun f => f.id == se.file_entry_id) with
  | none => simp [hf, setSnaps]
  | some fe =>
    cases hb : lookupPath st.primary fe.storage_path with
    | none => simp [hf, hb, setSnaps, DB.add_log]
    | some blob =>
      cases hd : env.decrypt blob with
      | none => simp [hf, hb, hd, setSnaps, DB.add_log]
      | some plain => simp [hf, hb, hd, setSnaps, DB.add_log]

theorem snapFold_setSnaps (env : Env) (uid : Nat) (tgt : String) (l : List SnapshotR)
    (entries : List SnapshotEntryR) : ∀ acc : SysState × List SnapOk × List SnapFail,
    entries.foldl (restoreSnapshotStep env uid tgt) (setSnaps acc.1 l, acc.2.1, acc.2.2)
      = (setSnaps (entries.foldl (restoreSnapshotStep env uid tgt) acc).1 l,
         (entries.foldl (restoreSnapshotStep env uid tgt) acc).2.1,
         (entries.foldl (restoreSnapshotStep env uid tgt) acc).2.2) := by
  induction entries with
  | nil => intro acc; rfl
  | cons a es ih =>
      intro acc
      rw [List.foldl_cons, List.foldl_cons, snapStep_setSnaps]
      exact ih (restoreSnapshotStep env uid tgt acc a)

/-- Fixture for C10: user 2 owns snapshot 70 referencing their file entry;
user 1 holds a valid OTP of their own. -/
def stC10 : SysState :=
  ⟨{ db0 with
      users := [user1, user2]
      files := [⟨80, 2, "secret.txt", 1, "PS", none, false, false, false⟩]
      snapshots := [⟨70, 2, none, none⟩]
      snapshot_entries := [⟨81, 70, 80⟩]
      otps := [⟨82, 1, "999999", 100, false⟩]
      next_id := 90 },
   [("PS", env0.encrypt [9])], [], []⟩

/-- C10 (confirmed): `restore_snapshot` never consults the snapshots table,
so its report is invariant under replacing the snapshots table — in
particular under changing the snapshot owner — and concretely user 1,
holding only their own valid OTP, restores the snapshot of user 2 (its single
file entry, owned by user 2) into their own target folder: the outcome does
not depend on whether the snapshot `user_id` equals the caller. -/
theorem C10_no_ownership_check :
    (∀ (env : Env) (st : SysState) (uid sid : Nat) (tgt : String)
        (code : Option String) (now : Nat) (n : NotifyRes) (snaps : List SnapshotR),
      (restore_snapshot env (setSnaps st snaps) uid sid tgt code now n).2
        = (restore_snapshot env st uid sid tgt code now n).2)
    ∧ ((restore_snapshot env0 stC10 1 70 "/steal" (some "999999") 10
        (NotifyRes.returns true)).2.ok = true
      ∧ (restore_snapshot env0 stC10 1 70 "/steal" (some "999999") 10
          (NotifyRes.returns true)).2.restored = [⟨"secret.txt", 1, "/steal/secret.txt"⟩]
      ∧ lookupPath (restore_snapshot env0 stC10 1 70 "/steal" (some "999999") 10
          (NotifyRes.returns true)).1.fs "/steal/secret.txt" = some [9]
      ∧ stC10.db.snapshots = [⟨70, 2, none, none⟩]) := by
  constructor
  · intro env st uid sid tgt code now n snaps
    cases hu : st.db.get_user uid with
    | none => simp [restore_snapshot, hu]
    | some u =>
      cases code with
      | none => simp [restore_snapshot, hu, REQUIRE_OTP_FOR_SNAPSHOT_RESTORE]
      | some c =>
        cases hv : st.db.get_valid_otp uid (some c) now with
        | none => simp [restore_snapshot, hu, hv, REQUIRE_OTP_FOR_SNAPSHOT_RESTORE]
        | some o =>
          simp only [restore_snapshot, setSnaps_get_user, hu,
            REQUIRE_OTP_FOR_SNAPSHOT_RESTORE, if_true, setSnaps_get_valid_otp, hv]
          split
          next h1 =>
            have h2 : ((st.db.mark_otp_used o.id).get_snapshot_entries sid).isEmpty
                = true := h1
            rw [if_pos h2]
          next h1 =>
            have h2 : ¬ ((st.db.mark_otp_used o.id).get_snapshot_entries sid).isEmpty
                = true := h1
            rw [if_neg h2]
            have hf := snapFold_setSnaps env uid tgt snaps
              ((st.db.mark_otp_used o.id).get_snapshot_entries sid)
              (({ db := st.db.mark_otp_used o.id, primary := st.primary, fs := st.fs,
                  notified := st.notified } : SysState), [], [])
            exact congrArg (fun p => SnapResult.mk true "" p.2.1 p.2.2) hf
  · exact ⟨by decide, by decide, by decide, by decide⟩

end Ensha
